import Mathlib

/-!
# Ledger of `main.go`: accounts, emission, destruction and transfers

Shallow embedding of the payment system of `src/main.go`.

* `float64` balances are taken as exact rationals (`ℚ`).
* The Go map `map[string]*Account` is an association list from keys to records.
  Every pointer stored in the map is created fresh by `NewPaymentSystem` or
  `OpenAccount`, so a record is owned by exactly one key and a write through the
  pointer found under a key is a write to the record stored under that key.
* Methods that mutate the receiver return the new state.
* A nil-pointer dereference (indexing a missing key and writing a field) is `none`.
* The Go `error` result is `Option String`: `none` is `nil`, `some msg` an error
  whose message is `msg`.
-/

namespace BankSystem

/-- Record type `Account` of `main.go`. -/
structure Account where
  IBAN : String
  Balance : ℚ
  Active : Bool
deriving DecidableEq

/-- The registry `map[string]*Account`, as an association list. -/
abbrev Accounts := List (String × Account)

/-- Map read `acc, ok := m[k]`: the record stored under `k`, if any. -/
def getAccount : Accounts → String → Option Account
  | [], _ => none
  | (k', v) :: rest, k => if k' = k then some v else getAccount rest k

/-- Map write `m[k] = &v`: replaces the record under `k`, or adds the key. -/
def setAccount : Accounts → String → Account → Accounts
  | [], k, v => [(k, v)]
  | (k', v') :: rest, k, v =>
    if k' = k then (k, v) :: rest else (k', v') :: setAccount rest k v

/-- Write through the pointer stored under `k`: the record under `k` becomes `f` of
itself; the key set is untouched (a missing key is left missing). -/
def modifyAccount : Accounts → String → (Account → Account) → Accounts
  | [], _, _ => []
  | (k', v) :: rest, k, f =>
    if k' = k then (k', f v) :: rest else (k', v) :: modifyAccount rest k f

/-- Keys of the registry. -/
def accountIds (m : Accounts) : List String := m.map Prod.fst

/-- Sum of the balances of all records of the registry. -/
def sumBalances (m : Accounts) : ℚ := (m.map fun e => e.2.Balance).sum

/-- State type `PaymentSystem` of `main.go`. -/
structure PaymentSystem where
  accounts : Accounts
  emissionAccount : String
  destructionAccount : String
deriving DecidableEq

/-- Go function `NewPaymentSystem`: an empty map, the two reserved ids, then the two
reserved records (id, balance 0, active) stored under their ids. -/
def NewPaymentSystem : PaymentSystem :=
  let ps : PaymentSystem :=
    { accounts := []
      emissionAccount := "BY00EMIS00000000000000000000"
      destructionAccount := "BY99DEST00000000000000000000" }
  let ps : PaymentSystem :=
    { ps with
      accounts := setAccount ps.accounts ps.emissionAccount
        ⟨ps.emissionAccount, 0, true⟩ }
  { ps with
    accounts := setAccount ps.accounts ps.destructionAccount
      ⟨ps.destructionAccount, 0, true⟩ }

/-- Go method `EmitMoney`: `ps.accounts[ps.emissionAccount].Balance += amount`.
Indexing a missing key yields a nil pointer and the field write panics: `none`. -/
def EmitMoney (ps : PaymentSystem) (amount : ℚ) : Option PaymentSystem :=
  match getAccount ps.accounts ps.emissionAccount with
  | none => none
  | some _ =>
    some { ps with
      accounts := modifyAccount ps.accounts ps.emissionAccount
        (fun a => { a with Balance := a.Balance + amount }) }

/-- Go method `DestroyMoney`: `ps.accounts[ps.destructionAccount].Balance += amount`.
Indexing a missing key yields a nil pointer and the field write panics: `none`. -/
def DestroyMoney (ps : PaymentSystem) (amount : ℚ) : Option PaymentSystem :=
  match getAccount ps.accounts ps.destructionAccount with
  | none => none
  | some _ =>
    some { ps with
      accounts := modifyAccount ps.accounts ps.destructionAccount
        (fun a => { a with Balance := a.Balance + amount }) }

/-- Go method `OpenAccount`: stores the fresh record `Account{IBAN: iban, Balance: 0,
Active: true}` under `iban`. -/
def OpenAccount (ps : PaymentSystem) (iban : String) : PaymentSystem :=
  { ps with accounts := setAccount ps.accounts iban ⟨iban, 0, true⟩ }

/-- Go method `TransferMoney`. Returns the state after the call and the error.
The three guards are in source order; the two writes go through the pointers
`fromAccount` and `toAccount`, the second one reading the record after the first
write (the two pointers are the same record when `fromIBAN = toIBAN`). -/
def TransferMoney (ps : PaymentSystem) (fromIBAN toIBAN : String) (amount : ℚ) :
    PaymentSystem × Option String :=
  match getAccount ps.accounts fromIBAN with
  | none => (ps, some "invalid source account")
  | some fromAccount =>
    if !fromAccount.Active || fromAccount.Balance < amount then
      (ps, some "invalid source account")
    else
      match getAccount ps.accounts toIBAN with
      | none => (ps, some "invalid destination account")
      | some toAccount =>
        if !toAccount.Active then
          (ps, some "invalid destination account")
        else if fromAccount.Balance < amount then
          (ps, some "not enough money for transfer")
        else
          let accounts1 := modifyAccount ps.accounts fromIBAN
            (fun a => { a with Balance := a.Balance - amount })
          let accounts2 := modifyAccount accounts1 toIBAN
            (fun a => { a with Balance := a.Balance + amount })
          ({ ps with accounts := accounts2 }, none)

/-- Anonymous struct `transferData` of `TransferMoneyJSON`. -/
structure TransferData where
  From : String
  To : String
  Amount : ℚ
deriving DecidableEq

/-- Go method `TransferMoneyJSON`. The library call `json.Unmarshal(data, &v)` is the
parameter `unmarshal`: given the text and the zero-valued struct it yields the filled
struct or a decoding error. -/
def TransferMoneyJSON (unmarshal : String → TransferData → Except String TransferData)
    (ps : PaymentSystem) (transferJSON : String) : PaymentSystem × Option String :=
  match unmarshal transferJSON { From := "", To := "", Amount := 0 } with
  | .error err => (ps, some err)
  | .ok transferData =>
    TransferMoney ps transferData.From transferData.To transferData.Amount

/-- Balance recorded under `k`, if `k` is in the registry. -/
def balanceOf (ps : PaymentSystem) (k : String) : Option ℚ :=
  (getAccount ps.accounts k).map Account.Balance

/-- Sum of all balances of the ledger. -/
def totalBalance (ps : PaymentSystem) : ℚ := sumBalances ps.accounts

/-- One call on the ledger interface `PaymentSystemInterface` that can change state. -/
inductive Op where
  | emitMoney (amount : ℚ)
  | destroyMoney (amount : ℚ)
  | openAccount (iban : String)
  | transferMoney (fromIBAN toIBAN : String) (amount : ℚ)
  | transferMoneyJSON (transferJSON : String)
deriving DecidableEq

/-- State after one call; `none` when the call panics. The error result of the two
transfer methods is dropped, as the driver `main` does. -/
def step (unmarshal : String → TransferData → Except String TransferData)
    (ps : PaymentSystem) : Op → Option PaymentSystem
  | .emitMoney amount => EmitMoney ps amount
  | .destroyMoney amount => DestroyMoney ps amount
  | .openAccount iban => some (OpenAccount ps iban)
  | .transferMoney fromIBAN toIBAN amount => some (TransferMoney ps fromIBAN toIBAN amount).1
  | .transferMoneyJSON transferJSON => some (TransferMoneyJSON unmarshal ps transferJSON).1

/-- State after a sequence of calls, left to right; `none` when one of them panics. -/
def run (unmarshal : String → TransferData → Except String TransferData) :
    PaymentSystem → List Op → Option PaymentSystem
  | ps, [] => some ps
  | ps, op :: ops =>
    match step unmarshal ps op with
    | none => none
    | some ps1 => run unmarshal ps1 ops

/-- Sum of the amounts passed to `EmitMoney` in a sequence of calls. -/
def emitted : List Op → ℚ
  | [] => 0
  | .emitMoney amount :: ops => amount + emitted ops
  | _ :: ops => emitted ops

/-- Sum of the amounts passed to `DestroyMoney` in a sequence of calls. -/
def destroyed : List Op → ℚ
  | [] => 0
  | .destroyMoney amount :: ops => amount + destroyed ops
  | _ :: ops => destroyed ops

/-- Whether the call is an `OpenAccount`. -/
def Op.isOpenAccount : Op → Bool
  | .openAccount _ => true
  | _ => false

/-- Whether the registry holds an active record under `k`. -/
def isActiveAccount (m : Accounts) (k : String) : Bool :=
  match getAccount m k with
  | some a => a.Active
  | none => false

/-- The two reserved ids are the ones `NewPaymentSystem` sets and each has an active
record in the registry. -/
def ReservedActive (ps : PaymentSystem) : Prop :=
  ps.emissionAccount = "BY00EMIS00000000000000000000" ∧
  ps.destructionAccount = "BY99DEST00000000000000000000" ∧
  isActiveAccount ps.accounts "BY00EMIS00000000000000000000" = true ∧
  isActiveAccount ps.accounts "BY99DEST00000000000000000000" = true

/-- Ledgers reachable from `NewPaymentSystem` by `EmitMoney`, `DestroyMoney` and
`TransferMoney` calls, together with the cumulative amount passed to `EmitMoney` and the
cumulative amount passed to `DestroyMoney` so far. -/
inductive ReachedWith : PaymentSystem → ℚ → ℚ → Prop where
  | init : ReachedWith NewPaymentSystem 0 0
  | emit (ps ps1 : PaymentSystem) (e d amount : ℚ) :
      ReachedWith ps e d → EmitMoney ps amount = some ps1 →
      ReachedWith ps1 (e + amount) d
  | destroy (ps ps1 : PaymentSystem) (e d amount : ℚ) :
      ReachedWith ps e d → DestroyMoney ps amount = some ps1 →
      ReachedWith ps1 e (d + amount)
  | transfer (ps : PaymentSystem) (e d : ℚ) (fromIBAN toIBAN : String) (amount : ℚ) :
      ReachedWith ps e d →
      ReachedWith (TransferMoney ps fromIBAN toIBAN amount).1 e d

/-- Calls of the driver `main` (the transfer given directly instead of as JSON text). -/
def mainOps : List Op :=
  [ .openAccount "BY12345678901234567890123456",
    .openAccount "BY98765432109876543210987654",
    .emitMoney 1000,
    .transferMoney "BY00EMIS00000000000000000000" "BY12345678901234567890123456" 500 ]

/-- Ledger that `main` has built when it prints "After transfer". -/
def mainLedger : PaymentSystem :=
  { accounts :=
      [ ("BY00EMIS00000000000000000000", ⟨"BY00EMIS00000000000000000000", 500, true⟩),
        ("BY99DEST00000000000000000000", ⟨"BY99DEST00000000000000000000", 0, true⟩),
        ("BY12345678901234567890123456", ⟨"BY12345678901234567890123456", 500, true⟩),
        ("BY98765432109876543210987654", ⟨"BY98765432109876543210987654", 0, true⟩) ]
    emissionAccount := "BY00EMIS00000000000000000000"
    destructionAccount := "BY99DEST00000000000000000000" }

/-- Ledger after `DestroyMoney(1)` on the initial ledger. -/
def burnLedger : PaymentSystem :=
  { accounts :=
      [ ("BY00EMIS00000000000000000000", ⟨"BY00EMIS00000000000000000000", 0, true⟩),
        ("BY99DEST00000000000000000000", ⟨"BY99DEST00000000000000000000", 1, true⟩) ]
    emissionAccount := "BY00EMIS00000000000000000000"
    destructionAccount := "BY99DEST00000000000000000000" }

/-- Sample calls: emit 1000, move 300 from the emission to the destruction account,
destroy 50. -/
def sampleOps : List Op :=
  [ .emitMoney 1000,
    .transferMoney "BY00EMIS00000000000000000000" "BY99DEST00000000000000000000" 300,
    .destroyMoney 50 ]

/-- Ledger after `EmitMoney(-5)` on the initial ledger. -/
def overdrawnLedger : PaymentSystem :=
  { accounts :=
      [ ("BY00EMIS00000000000000000000", ⟨"BY00EMIS00000000000000000000", -5, true⟩),
        ("BY99DEST00000000000000000000", ⟨"BY99DEST00000000000000000000", 0, true⟩) ]
    emissionAccount := "BY00EMIS00000000000000000000"
    destructionAccount := "BY99DEST00000000000000000000" }

/-- Every record of the registry is active and carries as id the key it is stored
under, and no key occurs twice. -/
def WellKeyed (m : Accounts) : Prop :=
  (∀ e ∈ m, e.2.Active = true ∧ e.2.IBAN = e.1) ∧ (accountIds m).Nodup

/-- Spec operation `TransferMoneyFromRequest`, written from the words of the spec:
decode the request into source id, destination id and amount; when decoding fails, fail
with the decoding error (`MalformedRequest`) and leave the ledger as it is; otherwise
forward to `TransferMoney` and return whatever it returns. -/
def TransferMoneyFromRequest (decode : String → Except String (String × String × ℚ))
    (ps : PaymentSystem) (request : String) : PaymentSystem × Option String :=
  match decode request with
  | .error malformedRequest => (ps, some malformedRequest)
  | .ok (sourceId, destinationId, amount) => TransferMoney ps sourceId destinationId amount

/-! ### The library call `json.Unmarshal`

`TransferMoneyJSON` hands the request text to `json.Unmarshal` of Go's `encoding/json`
with a pointer to a struct of three tagged fields. The definitions below follow the
documented behaviour of that call for such a struct: object keys are matched to the
tags exactly or up to letter case; keys that match no field are ignored; a field that
no key addresses keeps its value; a JSON `null` has no effect on a `string` or `float64`
field; a value that is not appropriate for the field is skipped, decoding goes on, and
the earliest such error is returned at the end. Numbers are exact rationals, as the
balances are. Checking the syntax of the text and building the value is the parameter
`parse`. -/

/-- A parsed JSON value. -/
inductive JsonValue where
  | null
  | bool (b : Bool)
  | number (n : ℚ)
  | string (s : String)
  | array (items : List JsonValue)
  | object (members : List (String × JsonValue))

/-- The three fields of the struct `transferData`. -/
inductive TransferField where
  | From
  | To
  | Amount
deriving DecidableEq

/-- Letter-case folding of an object key (ASCII letters to lower case; no other
character folds to a letter of "from", "to" or "amount"). -/
def foldKey (key : String) : String := String.mk (key.data.map Char.toLower)

/-- The field an object key addresses through the tags `json:"from"`, `json:"to"` and
`json:"amount"`, if any. -/
def fieldOfKey (key : String) : Option TransferField :=
  if foldKey key = "from" then some .From
  else if foldKey key = "to" then some .To
  else if foldKey key = "amount" then some .Amount
  else none

/-- Whether a JSON value can be stored in a field: `null` always (it has no effect), a
string in the `string` fields, a number in the `float64` field. -/
def appropriate : TransferField → JsonValue → Bool
  | _, .null => true
  | .From, .string _ => true
  | .To, .string _ => true
  | .Amount, .number _ => true
  | _, _ => false

/-- Stores a JSON value in a field; `none` when the value is not appropriate. -/
def storeField : TransferField → JsonValue → TransferData → Option TransferData
  | _, .null, v => some v
  | .From, .string s, v => some { v with From := s }
  | .To, .string s, v => some { v with To := s }
  | .Amount, .number n, v => some { v with Amount := n }
  | _, _, _ => none

/-- The word by which `UnmarshalTypeError` names the kind of a JSON value. -/
def JsonValue.kind : JsonValue → String
  | .null => "null"
  | .bool _ => "bool"
  | .number _ => "number"
  | .string _ => "string"
  | .array _ => "array"
  | .object _ => "object"

/-- Text of the `UnmarshalTypeError` for a value stored in a field of the struct. -/
def typeErrorText (value : JsonValue) : TransferField → String
  | .From =>
    "json: cannot unmarshal " ++ value.kind ++ " into Go struct field .from of type string"
  | .To =>
    "json: cannot unmarshal " ++ value.kind ++ " into Go struct field .to of type string"
  | .Amount =>
    "json: cannot unmarshal " ++ value.kind ++ " into Go struct field .amount of type float64"

/-- Decoding of the members of a JSON object into the struct, left to right, with the
earliest type error saved so far. -/
def decodeObject :
    List (String × JsonValue) → TransferData → Option String → TransferData × Option String
  | [], v, saved => (v, saved)
  | (key, value) :: rest, v, saved =>
    match fieldOfKey key with
    | none => decodeObject rest v saved
    | some field =>
      match storeField field value v with
      | some v1 => decodeObject rest v1 saved
      | none =>
        match saved with
        | some err => decodeObject rest v (some err)
        | none => decodeObject rest v (some (typeErrorText value field))

/-- Decoding of a parsed JSON value into the struct: an object is decoded member by
member, `null` has no effect, any other value is a type error (the name of the struct
type in the text of that error is left out). -/
def unmarshalValue : JsonValue → TransferData → Except String TransferData
  | .object members, v =>
    match decodeObject members v none with
    | (v1, none) => .ok v1
    | (_, some err) => .error err
  | .null, v => .ok v
  | other, _ => .error ("json: cannot unmarshal " ++ other.kind ++ " into Go value")

/-- The call `json.Unmarshal(data, &v)`: a syntax error of the text, or the decoding of
the parsed value. -/
def jsonUnmarshal (parse : String → Except String JsonValue) (data : String)
    (v : TransferData) : Except String TransferData :=
  match parse data with
  | .error syntaxError => .error syntaxError
  | .ok value => unmarshalValue value v

/-- Request object with the source and the destination but no amount. -/
def requestWithoutAmount : JsonValue :=
  .object
    [ ("from", .string "BY00EMIS00000000000000000000"),
      ("to", .string "BY98765432109876543210987654") ]

/-- Request object with the three fields and one more, unknown, member. -/
def requestWithMemo : JsonValue :=
  .object
    [ ("from", .string "BY00EMIS00000000000000000000"),
      ("to", .string "BY98765432109876543210987654"),
      ("amount", .number 100),
      ("memo", .string "rent") ]

/-- Request object whose amount is a string. -/
def requestWithTextAmount : JsonValue :=
  .object
    [ ("from", .string "BY00EMIS00000000000000000000"),
      ("to", .string "BY98765432109876543210987654"),
      ("amount", .string "100") ]

/-- Ledger after `EmitMoney(1000)` and `DestroyMoney(50)` on the initial ledger. -/
def mintBurnLedger : PaymentSystem :=
  { accounts :=
      [ ("BY00EMIS00000000000000000000", ⟨"BY00EMIS00000000000000000000", 1000, true⟩),
        ("BY99DEST00000000000000000000", ⟨"BY99DEST00000000000000000000", 50, true⟩) ]
    emissionAccount := "BY00EMIS00000000000000000000"
    destructionAccount := "BY99DEST00000000000000000000" }

/-! ### `TransferMoney` over an arbitrary number type

The definitions above take `float64` as `ℚ`. `TransferMoney` itself uses only three
operations on numbers: the comparison `<` of its guards and the `-` and `+` of its two
writes. The definitions below repeat the record, the registry and `TransferMoney` with
the number type and these three operations as parameters, so that a statement which
holds for every choice of them holds for `float64` as well, NaN and infinities
included. -/

/-- The operations on numbers that `TransferMoney` uses. -/
structure NumberOps (α : Type) where
  lt : α → α → Bool
  sub : α → α → α
  add : α → α → α

/-- Record type `Account` of `main.go` with balances of type `α`. -/
structure AccountOf (α : Type) where
  IBAN : String
  Balance : α
  Active : Bool
deriving DecidableEq

/-- The registry `map[string]*Account` with balances of type `α`. -/
abbrev AccountsOf (α : Type) := List (String × AccountOf α)

/-- Map read `acc, ok := m[k]`, as `getAccount`. -/
def getAccountOf {α : Type} : AccountsOf α → String → Option (AccountOf α)
  | [], _ => none
  | (k', v) :: rest, k => if k' = k then some v else getAccountOf rest k

/-- Write through the pointer stored under `k`, as `modifyAccount`. -/
def modifyAccountOf {α : Type} :
    AccountsOf α → String → (AccountOf α → AccountOf α) → AccountsOf α
  | [], _, _ => []
  | (k', v) :: rest, k, f =>
    if k' = k then (k', f v) :: rest else (k', v) :: modifyAccountOf rest k f

/-- State type `PaymentSystem` of `main.go` with balances of type `α`. -/
structure PaymentSystemOf (α : Type) where
  accounts : AccountsOf α
  emissionAccount : String
  destructionAccount : String
deriving DecidableEq

/-- Go method `TransferMoney` with the number operations `num`: the same guards in the
same order and the same two writes as `TransferMoney`. -/
def TransferMoneyOf {α : Type} (num : NumberOps α) (ps : PaymentSystemOf α)
    (fromIBAN toIBAN : String) (amount : α) : PaymentSystemOf α × Option String :=
  match getAccountOf ps.accounts fromIBAN with
  | none => (ps, some "invalid source account")
  | some fromAccount =>
    if !fromAccount.Active || num.lt fromAccount.Balance amount then
      (ps, some "invalid source account")
    else
      match getAccountOf ps.accounts toIBAN with
      | none => (ps, some "invalid destination account")
      | some toAccount =>
        if !toAccount.Active then
          (ps, some "invalid destination account")
        else if num.lt fromAccount.Balance amount then
          (ps, some "not enough money for transfer")
        else
          let accounts1 := modifyAccountOf ps.accounts fromIBAN
            (fun a => { a with Balance := num.sub a.Balance amount })
          let accounts2 := modifyAccountOf accounts1 toIBAN
            (fun a => { a with Balance := num.add a.Balance amount })
          ({ ps with accounts := accounts2 }, none)

/-- The exact numbers of the definitions above as number operations. -/
def ratOps : NumberOps ℚ :=
  { lt := fun x y => decide (x < y)
    sub := fun x y => x - y
    add := fun x y => x + y }

/-- A record with rational balance as a record of `AccountOf ℚ`. -/
def Account.toOf (a : Account) : AccountOf ℚ := ⟨a.IBAN, a.Balance, a.Active⟩

/-- A ledger with rational balances as a ledger of `PaymentSystemOf ℚ`. -/
def PaymentSystem.toOf (ps : PaymentSystem) : PaymentSystemOf ℚ :=
  { accounts := ps.accounts.map fun e => (e.1, e.2.toOf)
    emissionAccount := ps.emissionAccount
    destructionAccount := ps.destructionAccount }

/-- The values of a `float64`, with the finite ones taken as exact rationals: what is
modelled is how NaN and the infinities compare and propagate, not rounding. -/
inductive F64 where
  | finite (x : ℚ)
  | posInf
  | negInf
  | nan
deriving DecidableEq

/-- Comparison `<` of `float64`: false as soon as an operand is NaN. -/
def F64.lt : F64 → F64 → Bool
  | .nan, _ => false
  | _, .nan => false
  | .finite x, .finite y => decide (x < y)
  | .finite _, .posInf => true
  | .finite _, .negInf => false
  | .posInf, _ => false
  | .negInf, .negInf => false
  | .negInf, _ => true

/-- Comparison `>=` of `float64`: false as soon as an operand is NaN. -/
def F64.ge : F64 → F64 → Bool
  | .nan, _ => false
  | _, .nan => false
  | .finite x, .finite y => decide (y ≤ x)
  | .finite _, .posInf => false
  | .finite _, .negInf => true
  | .posInf, _ => true
  | .negInf, .negInf => true
  | .negInf, _ => false

/-- Sign change of a `float64`. -/
def F64.neg : F64 → F64
  | .finite x => .finite (-x)
  | .posInf => .negInf
  | .negInf => .posInf
  | .nan => .nan

/-- Addition of `float64`: NaN propagates and the sum of opposite infinities is NaN. -/
def F64.add : F64 → F64 → F64
  | .nan, _ => .nan
  | _, .nan => .nan
  | .finite x, .finite y => .finite (x + y)
  | .finite _, .posInf => .posInf
  | .finite _, .negInf => .negInf
  | .posInf, .negInf => .nan
  | .posInf, _ => .posInf
  | .negInf, .posInf => .nan
  | .negInf, _ => .negInf

/-- Subtraction of `float64`. -/
def F64.sub (x y : F64) : F64 := F64.add x (F64.neg y)

/-- The operations of `float64` that `TransferMoney` uses. -/
def f64Ops : NumberOps F64 :=
  { lt := F64.lt
    sub := F64.sub
    add := F64.add }

/-- Map write `m[k] = &v`, as `setAccount`. -/
def setAccountOf {α : Type} : AccountsOf α → String → AccountOf α → AccountsOf α
  | [], k, v => [(k, v)]
  | (k', v') :: rest, k, v =>
    if k' = k then (k, v) :: rest else (k', v') :: setAccountOf rest k v

/-- Go function `NewPaymentSystem` with balances of type `α`, whose zero is `zero`: the
same two map writes as `NewPaymentSystem`. -/
def NewPaymentSystemOf {α : Type} (zero : α) : PaymentSystemOf α :=
  let ps : PaymentSystemOf α :=
    { accounts := []
      emissionAccount := "BY00EMIS00000000000000000000"
      destructionAccount := "BY99DEST00000000000000000000" }
  let ps : PaymentSystemOf α :=
    { ps with
      accounts := setAccountOf ps.accounts ps.emissionAccount
        ⟨ps.emissionAccount, zero, true⟩ }
  { ps with
    accounts := setAccountOf ps.accounts ps.destructionAccount
      ⟨ps.destructionAccount, zero, true⟩ }

/-- The initial ledger of `NewPaymentSystem` with `float64` balances. -/
def initialLedgerF64 : PaymentSystemOf F64 := NewPaymentSystemOf (F64.finite 0)

/-! ## Registry lemmas -/

theorem getAccount_modifyAccount_self (m : Accounts) (k : String) (f : Account → Account) :
    getAccount (modifyAccount m k f) k = (getAccount m k).map f := by
  induction m with
  | nil => rfl
  | cons e rest ih =>
    obtain ⟨k1, v⟩ := e
    by_cases h : k1 = k
    · simp [modifyAccount, getAccount, h]
    · simp [modifyAccount, getAccount, h, ih]

theorem getAccount_modifyAccount_of_ne (m : Accounts) (k k2 : String) (f : Account → Account)
    (hne : k ≠ k2) : getAccount (modifyAccount m k f) k2 = getAccount m k2 := by
  induction m with
  | nil => rfl
  | cons e rest ih =>
    obtain ⟨k1, v⟩ := e
    by_cases h : k1 = k
    · subst h
      simp [modifyAccount, getAccount, hne]
    · simp [modifyAccount, getAccount, h, ih]

theorem accountIds_modifyAccount (m : Accounts) (k : String) (f : Account → Account) :
    accountIds (modifyAccount m k f) = accountIds m := by
  induction m with
  | nil => rfl
  | cons e rest ih =>
    obtain ⟨k1, v⟩ := e
    by_cases h : k1 = k
    · simp [modifyAccount, accountIds, h]
    · simpa [modifyAccount, accountIds, h] using ih

theorem sumBalances_modifyAccount (m : Accounts) (k : String) (f : Account → Account)
    (a : Account) (ha : getAccount m k = some a) :
    sumBalances (modifyAccount m k f) = sumBalances m - a.Balance + (f a).Balance := by
  induction m with
  | nil => simp [getAccount] at ha
  | cons e rest ih =>
    obtain ⟨k1, v⟩ := e
    by_cases h : k1 = k
    · simp only [getAccount, h, if_true, Option.some.injEq] at ha
      subst ha
      simp [modifyAccount, sumBalances, h]
      ring
    · simp only [getAccount, h, if_false] at ha
      have ih1 := ih ha
      simp only [sumBalances] at ih1
      simp [modifyAccount, sumBalances, h, ih1]
      ring

theorem modifyAccount_id (m : Accounts) (k : String) (f : Account → Account)
    (hf : ∀ a, getAccount m k = some a → f a = a) : modifyAccount m k f = m := by
  induction m with
  | nil => rfl
  | cons e rest ih =>
    obtain ⟨k1, v⟩ := e
    by_cases h : k1 = k
    · have hv : f v = v := hf v (by simp [getAccount, h])
      simp [modifyAccount, h, hv]
    · have ih1 := ih (fun a ha => hf a (by simpa [getAccount, h] using ha))
      simp [modifyAccount, h, ih1]

theorem modifyAccount_modifyAccount (m : Accounts) (k : String) (f g : Account → Account) :
    modifyAccount (modifyAccount m k f) k g = modifyAccount m k (g ∘ f) := by
  induction m with
  | nil => rfl
  | cons e rest ih =>
    obtain ⟨k1, v⟩ := e
    by_cases h : k1 = k
    · simp [modifyAccount, h]
    · simp [modifyAccount, h, ih]

theorem getAccount_setAccount_self (m : Accounts) (k : String) (v : Account) :
    getAccount (setAccount m k v) k = some v := by
  induction m with
  | nil => simp [setAccount, getAccount]
  | cons e rest ih =>
    obtain ⟨k1, v1⟩ := e
    by_cases h : k1 = k
    · simp [setAccount, getAccount, h]
    · simp [setAccount, getAccount, h, ih]

theorem getAccount_setAccount_of_ne (m : Accounts) (k k2 : String) (v : Account)
    (hne : k ≠ k2) : getAccount (setAccount m k v) k2 = getAccount m k2 := by
  induction m with
  | nil => simp [setAccount, getAccount, hne]
  | cons e rest ih =>
    obtain ⟨k1, v1⟩ := e
    by_cases h : k1 = k
    · subst h
      simp [setAccount, getAccount, hne]
    · simp [setAccount, getAccount, h, ih]

theorem mem_modifyAccount (m : Accounts) (k : String) (f : Account → Account)
    (e : String × Account) (he : e ∈ modifyAccount m k f) :
    e ∈ m ∨ ∃ a, getAccount m k = some a ∧ e = (k, f a) := by
  induction m with
  | nil => simp [modifyAccount] at he
  | cons e1 rest ih =>
    obtain ⟨k1, v⟩ := e1
    by_cases h : k1 = k
    · subst h
      simp only [modifyAccount, if_true, List.mem_cons] at he
      rcases he with he | he
      · exact Or.inr ⟨v, by simp [getAccount], he⟩
      · exact Or.inl (List.mem_cons_of_mem _ he)
    · simp only [modifyAccount, h, if_false, List.mem_cons] at he
      rcases he with he | he
      · exact Or.inl (by simp [he])
      · rcases ih he with h1 | ⟨a, ha, hea⟩
        · exact Or.inl (List.mem_cons_of_mem _ h1)
        · exact Or.inr ⟨a, by simpa [getAccount, h] using ha, hea⟩

theorem mem_of_getAccount (m : Accounts) (k : String) (a : Account)
    (h : getAccount m k = some a) : (k, a) ∈ m := by
  induction m with
  | nil => simp [getAccount] at h
  | cons e rest ih =>
    obtain ⟨k1, v⟩ := e
    by_cases hk : k1 = k
    · simp only [getAccount, hk, if_true, Option.some.injEq] at h
      simp [hk, h]
    · simp only [getAccount, hk, if_false] at h
      exact List.mem_cons_of_mem _ (ih h)

theorem isActiveAccount_modifyAccount (m : Accounts) (k k2 : String) (f : Account → Account)
    (hf : ∀ a, (f a).Active = a.Active) :
    isActiveAccount (modifyAccount m k f) k2 = isActiveAccount m k2 := by
  unfold isActiveAccount
  by_cases h : k = k2
  · subst h
    rw [getAccount_modifyAccount_self]
    cases getAccount m k with
    | none => rfl
    | some a => simp [hf]
  · rw [getAccount_modifyAccount_of_ne _ _ _ _ h]

theorem isActiveAccount_setBalance (m : Accounts) (k k2 : String) (g : Account → ℚ) :
    isActiveAccount (modifyAccount m k (fun x => { x with Balance := g x })) k2 =
      isActiveAccount m k2 :=
  isActiveAccount_modifyAccount m k k2 (fun x => { x with Balance := g x }) (fun _ => rfl)

theorem isActiveAccount_setAccount (m : Accounts) (k k2 : String) (v : Account)
    (hv : v.Active = true) (h : isActiveAccount m k2 = true) :
    isActiveAccount (setAccount m k v) k2 = true := by
  unfold isActiveAccount at h ⊢
  by_cases hk : k = k2
  · subst hk
    rw [getAccount_setAccount_self]
    exact hv
  · rw [getAccount_setAccount_of_ne _ _ _ _ hk]
    exact h

/-- Unfolding of `TransferMoney` on the path where all guards pass. -/
theorem TransferMoney_of_valid (ps : PaymentSystem) (fromIBAN toIBAN : String) (amount : ℚ)
    (a b : Account) (hA : getAccount ps.accounts fromIBAN = some a)
    (hB : getAccount ps.accounts toIBAN = some b) (ha : a.Active = true)
    (hb : b.Active = true) (hamt : amount ≤ a.Balance) :
    TransferMoney ps fromIBAN toIBAN amount =
      ({ ps with
          accounts := modifyAccount
            (modifyAccount ps.accounts fromIBAN
              (fun x => { x with Balance := x.Balance - amount }))
            toIBAN (fun x => { x with Balance := x.Balance + amount }) }, none) := by
  have hlt : ¬ a.Balance < amount := not_lt.mpr hamt
  simp [TransferMoney, hA, hB, ha, hb, hlt]

/-- The total of all balances is the same after `TransferMoney`, whatever it returns. -/
theorem totalBalance_TransferMoney (ps : PaymentSystem) (fromIBAN toIBAN : String)
    (amount : ℚ) :
    totalBalance (TransferMoney ps fromIBAN toIBAN amount).1 = totalBalance ps := by
  unfold TransferMoney
  split
  · rfl
  · rename_i a hA
    split
    · rfl
    · split
      · rfl
      · rename_i b hB
        split
        · rfl
        · split
          · rfl
          · have h1 := sumBalances_modifyAccount ps.accounts fromIBAN
              (fun x => { x with Balance := x.Balance - amount }) a hA
            have hB1 : ∃ b1, getAccount (modifyAccount ps.accounts fromIBAN
                (fun x => { x with Balance := x.Balance - amount })) toIBAN = some b1 := by
              by_cases hk : fromIBAN = toIBAN
              · subst hk
                rw [getAccount_modifyAccount_self, hA]
                exact ⟨_, rfl⟩
              · rw [getAccount_modifyAccount_of_ne _ _ _ _ hk, hB]
                exact ⟨_, rfl⟩
            obtain ⟨b1, hb1⟩ := hB1
            have h2 := sumBalances_modifyAccount _ toIBAN
              (fun x => { x with Balance := x.Balance + amount }) b1 hb1
            simp only [totalBalance]
            rw [h2, h1]
            simp only []
            ring

/-- The ledger after `TransferMoney` is the old one or the old one with the two writes. -/
theorem TransferMoney_fst_cases (ps : PaymentSystem) (fromIBAN toIBAN : String)
    (amount : ℚ) :
    (TransferMoney ps fromIBAN toIBAN amount).1 = ps ∨
      (TransferMoney ps fromIBAN toIBAN amount).1 =
        { ps with
          accounts := modifyAccount
            (modifyAccount ps.accounts fromIBAN
              (fun x => { x with Balance := x.Balance - amount }))
            toIBAN (fun x => { x with Balance := x.Balance + amount }) } := by
  unfold TransferMoney
  split
  · exact Or.inl rfl
  · split
    · exact Or.inl rfl
    · split
      · exact Or.inl rfl
      · split
        · exact Or.inl rfl
        · split
          · exact Or.inl rfl
          · exact Or.inr rfl

theorem TransferMoneyJSON_fst_cases
    (unmarshal : String → TransferData → Except String TransferData)
    (ps : PaymentSystem) (transferJSON : String) :
    (TransferMoneyJSON unmarshal ps transferJSON).1 = ps ∨
      ∃ fromIBAN toIBAN amount, (TransferMoneyJSON unmarshal ps transferJSON).1 =
        (TransferMoney ps fromIBAN toIBAN amount).1 := by
  unfold TransferMoneyJSON
  split
  · exact Or.inl rfl
  · exact Or.inr ⟨_, _, _, rfl⟩

theorem totalBalance_NewPaymentSystem : totalBalance NewPaymentSystem = 0 := by
  simp [totalBalance, sumBalances, NewPaymentSystem, setAccount]

theorem ReservedActive_NewPaymentSystem : ReservedActive NewPaymentSystem := by
  refine ⟨rfl, rfl, ?_, ?_⟩ <;> decide

theorem ReservedActive_TransferMoney (ps : PaymentSystem) (fromIBAN toIBAN : String)
    (amount : ℚ) (h : ReservedActive ps) :
    ReservedActive (TransferMoney ps fromIBAN toIBAN amount).1 := by
  rcases TransferMoney_fst_cases ps fromIBAN toIBAN amount with hc | hc
  · rw [hc]
    exact h
  · rw [hc]
    obtain ⟨h1, h2, h3, h4⟩ := h
    refine ⟨h1, h2, ?_, ?_⟩
    · simp only [isActiveAccount_setBalance]
      exact h3
    · simp only [isActiveAccount_setBalance]
      exact h4

theorem ReservedActive_TransferMoneyJSON
    (unmarshal : String → TransferData → Except String TransferData)
    (ps : PaymentSystem) (transferJSON : String) (h : ReservedActive ps) :
    ReservedActive (TransferMoneyJSON unmarshal ps transferJSON).1 := by
  rcases TransferMoneyJSON_fst_cases unmarshal ps transferJSON with hc | ⟨f, t, a, hc⟩
  · rw [hc]
    exact h
  · rw [hc]
    exact ReservedActive_TransferMoney ps f t a h

theorem ReservedActive_OpenAccount (ps : PaymentSystem) (iban : String)
    (h : ReservedActive ps) : ReservedActive (OpenAccount ps iban) := by
  obtain ⟨h1, h2, h3, h4⟩ := h
  exact ⟨h1, h2, isActiveAccount_setAccount _ _ _ _ rfl h3,
    isActiveAccount_setAccount _ _ _ _ rfl h4⟩

theorem getAccount_of_isActiveAccount (m : Accounts) (k : String)
    (h : isActiveAccount m k = true) : ∃ a, getAccount m k = some a ∧ a.Active = true := by
  unfold isActiveAccount at h
  cases hg : getAccount m k with
  | none => simp [hg] at h
  | some a => exact ⟨a, rfl, by simpa [hg] using h⟩

/-- With the reserved records in place `EmitMoney` does not panic; it keeps them in
place and raises the total by `amount`. -/
theorem EmitMoney_of_reserved (ps : PaymentSystem) (amount : ℚ) (h : ReservedActive ps) :
    ∃ ps1, EmitMoney ps amount = some ps1 ∧ ReservedActive ps1 ∧
      totalBalance ps1 = totalBalance ps + amount := by
  obtain ⟨h1, h2, h3, h4⟩ := h
  obtain ⟨a, ha, _⟩ := getAccount_of_isActiveAccount _ _ h3
  rw [← h1] at ha
  have hcall : EmitMoney ps amount = some { ps with
      accounts := modifyAccount ps.accounts ps.emissionAccount
        (fun x => { x with Balance := x.Balance + amount }) } := by
    simp only [EmitMoney, ha]
  refine ⟨_, hcall, ⟨h1, h2, ?_, ?_⟩, ?_⟩
  · simp only [isActiveAccount_setBalance]
    exact h3
  · simp only [isActiveAccount_setBalance]
    exact h4
  · simp only [totalBalance]
    rw [sumBalances_modifyAccount _ _ _ a ha]
    simp only []
    ring

/-- With the reserved records in place `DestroyMoney` does not panic; it keeps them in
place and raises the total by `amount`. -/
theorem DestroyMoney_of_reserved (ps : PaymentSystem) (amount : ℚ) (h : ReservedActive ps) :
    ∃ ps1, DestroyMoney ps amount = some ps1 ∧ ReservedActive ps1 ∧
      totalBalance ps1 = totalBalance ps + amount := by
  obtain ⟨h1, h2, h3, h4⟩ := h
  obtain ⟨a, ha, _⟩ := getAccount_of_isActiveAccount _ _ h4
  rw [← h2] at ha
  have hcall : DestroyMoney ps amount = some { ps with
      accounts := modifyAccount ps.accounts ps.destructionAccount
        (fun x => { x with Balance := x.Balance + amount }) } := by
    simp only [DestroyMoney, ha]
  refine ⟨_, hcall, ⟨h1, h2, ?_, ?_⟩, ?_⟩
  · simp only [isActiveAccount_setBalance]
    exact h3
  · simp only [isActiveAccount_setBalance]
    exact h4
  · simp only [totalBalance]
    rw [sumBalances_modifyAccount _ _ _ a ha]
    simp only []
    ring

theorem totalBalance_TransferMoneyJSON
    (unmarshal : String → TransferData → Except String TransferData)
    (ps : PaymentSystem) (transferJSON : String) :
    totalBalance (TransferMoneyJSON unmarshal ps transferJSON).1 = totalBalance ps := by
  rcases TransferMoneyJSON_fst_cases unmarshal ps transferJSON with hc | ⟨f, t, a, hc⟩
  · rw [hc]
  · rw [hc]
    exact totalBalance_TransferMoney ps f t a

/-- No call panics on a ledger with the reserved records in place, and the reserved
records are still in place afterwards. -/
theorem step_reserved (unmarshal : String → TransferData → Except String TransferData)
    (ps : PaymentSystem) (op : Op) (h : ReservedActive ps) :
    ∃ ps1, step unmarshal ps op = some ps1 ∧ ReservedActive ps1 := by
  cases op with
  | emitMoney amount =>
    obtain ⟨ps1, h1, h2, _⟩ := EmitMoney_of_reserved ps amount h
    exact ⟨ps1, h1, h2⟩
  | destroyMoney amount =>
    obtain ⟨ps1, h1, h2, _⟩ := DestroyMoney_of_reserved ps amount h
    exact ⟨ps1, h1, h2⟩
  | openAccount iban => exact ⟨_, rfl, ReservedActive_OpenAccount ps iban h⟩
  | transferMoney f t a => exact ⟨_, rfl, ReservedActive_TransferMoney ps f t a h⟩
  | transferMoneyJSON js => exact ⟨_, rfl, ReservedActive_TransferMoneyJSON unmarshal ps js h⟩

theorem run_reserved (unmarshal : String → TransferData → Except String TransferData)
    (ops : List Op) (ps : PaymentSystem) (h : ReservedActive ps) :
    ∃ ps1, run unmarshal ps ops = some ps1 ∧ ReservedActive ps1 := by
  induction ops generalizing ps with
  | nil => exact ⟨ps, rfl, h⟩
  | cons op ops ih =>
    obtain ⟨ps1, h1, h2⟩ := step_reserved unmarshal ps op h
    obtain ⟨ps2, h3, h4⟩ := ih ps1 h2
    exact ⟨ps2, by simp only [run, h1, h3], h4⟩

/-- A call other than `OpenAccount` changes the total by the amount it emits or
destroys. -/
theorem step_totalBalance (unmarshal : String → TransferData → Except String TransferData)
    (ps : PaymentSystem) (op : Op) (h : ReservedActive ps)
    (hop : op.isOpenAccount = false) :
    ∃ ps1, step unmarshal ps op = some ps1 ∧ ReservedActive ps1 ∧
      totalBalance ps1 = totalBalance ps + emitted [op] + destroyed [op] := by
  cases op with
  | emitMoney amount =>
    obtain ⟨ps1, h1, h2, h3⟩ := EmitMoney_of_reserved ps amount h
    exact ⟨ps1, h1, h2, by simp [emitted, destroyed, h3]⟩
  | destroyMoney amount =>
    obtain ⟨ps1, h1, h2, h3⟩ := DestroyMoney_of_reserved ps amount h
    exact ⟨ps1, h1, h2, by simp [emitted, destroyed, h3]⟩
  | openAccount iban => simp [Op.isOpenAccount] at hop
  | transferMoney f t a =>
    exact ⟨_, rfl, ReservedActive_TransferMoney ps f t a h,
      by simp [emitted, destroyed, totalBalance_TransferMoney]⟩
  | transferMoneyJSON js =>
    exact ⟨_, rfl, ReservedActive_TransferMoneyJSON unmarshal ps js h,
      by simp [emitted, destroyed, totalBalance_TransferMoneyJSON]⟩

theorem emitted_cons (op : Op) (ops : List Op) :
    emitted (op :: ops) = emitted [op] + emitted ops := by
  cases op <;> simp [emitted]

theorem destroyed_cons (op : Op) (ops : List Op) :
    destroyed (op :: ops) = destroyed [op] + destroyed ops := by
  cases op <;> simp [destroyed]

theorem run_totalBalance (unmarshal : String → TransferData → Except String TransferData)
    (ops : List Op) (ps : PaymentSystem) (h : ReservedActive ps)
    (hops : ∀ op ∈ ops, op.isOpenAccount = false) :
    ∃ ps1, run unmarshal ps ops = some ps1 ∧
      totalBalance ps1 = totalBalance ps + emitted ops + destroyed ops := by
  induction ops generalizing ps with
  | nil => exact ⟨ps, rfl, by simp [emitted, destroyed]⟩
  | cons op ops ih =>
    obtain ⟨ps1, h1, h2, h3⟩ :=
      step_totalBalance unmarshal ps op h (hops op (List.mem_cons_self _ _))
    obtain ⟨ps2, h4, h5⟩ := ih ps1 h2 (fun o ho => hops o (List.mem_cons_of_mem _ ho))
    refine ⟨ps2, by simp only [run, h1, h4], ?_⟩
    rw [h5, h3, emitted_cons op ops, destroyed_cons op ops]
    ring

theorem ReachedWith_reserved (ps : PaymentSystem) (e d : ℚ) (h : ReachedWith ps e d) :
    ReservedActive ps := by
  induction h with
  | init => exact ReservedActive_NewPaymentSystem
  | emit ps ps1 e d amount _ hstep ih =>
    obtain ⟨ps2, h1, h2, _⟩ := EmitMoney_of_reserved ps amount ih
    rw [hstep] at h1
    cases h1
    exact h2
  | destroy ps ps1 e d amount _ hstep ih =>
    obtain ⟨ps2, h1, h2, _⟩ := DestroyMoney_of_reserved ps amount ih
    rw [hstep] at h1
    cases h1
    exact h2
  | transfer ps e d f t amount _ ih => exact ReservedActive_TransferMoney ps f t amount ih

/-- The ledger `mainLedger` is the one the calls of `main` produce. -/
theorem run_mainOps (unmarshal : String → TransferData → Except String TransferData) :
    run unmarshal NewPaymentSystem mainOps = some mainLedger := by
  simp [run, step, mainOps, mainLedger, NewPaymentSystem, OpenAccount, EmitMoney,
    TransferMoney, setAccount, getAccount, modifyAccount]
  norm_num

/-! ## TransferMoney: success -/

/-- C1 (counterexample): on `mainLedger` the account `BY12345678901234567890123456` is
present, active and holds 500; transferring 200 from it to itself returns no error, yet
its balance afterwards is 500 and not 500 - 200. -/
theorem transferMoney_same_account_not_debited :
    getAccount mainLedger.accounts "BY12345678901234567890123456"
        = some ⟨"BY12345678901234567890123456", 500, true⟩ ∧
      (200 : ℚ) ≤ 500 ∧
      (TransferMoney mainLedger "BY12345678901234567890123456"
        "BY12345678901234567890123456" 200).2 = none ∧
      balanceOf (TransferMoney mainLedger "BY12345678901234567890123456"
        "BY12345678901234567890123456" 200).1 "BY12345678901234567890123456"
        ≠ some (500 - 200) := by
  refine ⟨by decide, by norm_num, by decide, ?_⟩
  simp [TransferMoney, mainLedger, getAccount, modifyAccount, balanceOf]
  norm_num

/-- C1 (amended): if `A` and `B` are in the registry and active and `balance(A) ≥ amount`,
then `TransferMoney(A, B, amount)` returns no error and the sum of all balances is the
same as before; when moreover `A ≠ B`, afterwards `balance(A)` is the old `balance(A)`
minus `amount` and `balance(B)` is the old `balance(B)` plus `amount`. -/
theorem transferMoney_moves_amount (ps : PaymentSystem) (A B : String) (amount : ℚ)
    (a b : Account) (hA : getAccount ps.accounts A = some a)
    (hB : getAccount ps.accounts B = some b) (ha : a.Active = true)
    (hb : b.Active = true) (hamt : amount ≤ a.Balance) :
    (TransferMoney ps A B amount).2 = none ∧
      totalBalance (TransferMoney ps A B amount).1 = totalBalance ps ∧
      (A ≠ B →
        balanceOf (TransferMoney ps A B amount).1 A = some (a.Balance - amount) ∧
        balanceOf (TransferMoney ps A B amount).1 B = some (b.Balance + amount)) := by
  refine ⟨?_, totalBalance_TransferMoney ps A B amount, ?_⟩
  · rw [TransferMoney_of_valid ps A B amount a b hA hB ha hb hamt]
  · intro hne
    rw [TransferMoney_of_valid ps A B amount a b hA hB ha hb hamt]
    constructor
    · simp only [balanceOf]
      rw [getAccount_modifyAccount_of_ne _ _ _ _ (Ne.symm hne),
        getAccount_modifyAccount_self, hA]
      rfl
    · simp only [balanceOf]
      rw [getAccount_modifyAccount_self, getAccount_modifyAccount_of_ne _ _ _ _ hne, hB]
      rfl

/-- Witness of C1 (amended): 500 from the emission account of `mainLedger` to the
second opened account. -/
theorem transferMoney_moves_amount_witness :
    (TransferMoney mainLedger "BY00EMIS00000000000000000000"
        "BY98765432109876543210987654" 500).2 = none ∧
      totalBalance (TransferMoney mainLedger "BY00EMIS00000000000000000000"
        "BY98765432109876543210987654" 500).1 = totalBalance mainLedger ∧
      ("BY00EMIS00000000000000000000" ≠ "BY98765432109876543210987654" →
        balanceOf (TransferMoney mainLedger "BY00EMIS00000000000000000000"
          "BY98765432109876543210987654" 500).1 "BY00EMIS00000000000000000000"
          = some ((500 : ℚ) - 500) ∧
        balanceOf (TransferMoney mainLedger "BY00EMIS00000000000000000000"
          "BY98765432109876543210987654" 500).1 "BY98765432109876543210987654"
          = some ((0 : ℚ) + 500)) :=
  transferMoney_moves_amount mainLedger "BY00EMIS00000000000000000000"
    "BY98765432109876543210987654" 500
    ⟨"BY00EMIS00000000000000000000", 500, true⟩
    ⟨"BY98765432109876543210987654", 0, true⟩
    (by decide) (by decide) rfl rfl (le_refl _)

/-! ## TransferMoney: failure -/

/-- C2: whenever `TransferMoney` returns an error, the ledger after the call is the
ledger before it (same ids, same records). -/
theorem transferMoney_error_leaves_ledger (ps : PaymentSystem) (fromIBAN toIBAN : String)
    (amount : ℚ) (herr : (TransferMoney ps fromIBAN toIBAN amount).2 ≠ none) :
    (TransferMoney ps fromIBAN toIBAN amount).1 = ps := by
  have hcases : (∃ e, TransferMoney ps fromIBAN toIBAN amount = (ps, some e)) ∨
      (TransferMoney ps fromIBAN toIBAN amount).2 = none := by
    unfold TransferMoney
    split
    · exact Or.inl ⟨_, rfl⟩
    · split
      · exact Or.inl ⟨_, rfl⟩
      · split
        · exact Or.inl ⟨_, rfl⟩
        · split
          · exact Or.inl ⟨_, rfl⟩
          · split
            · exact Or.inl ⟨_, rfl⟩
            · exact Or.inr rfl
  rcases hcases with ⟨e, he⟩ | hnone
  · rw [he]
  · exact absurd hnone herr

/-- Witness of C2: 600 from the first opened account of `mainLedger`, which holds 500. -/
theorem transferMoney_error_leaves_ledger_witness :
    (TransferMoney mainLedger "BY12345678901234567890123456"
        "BY98765432109876543210987654" 600).2 ≠ none ∧
      (TransferMoney mainLedger "BY12345678901234567890123456"
        "BY98765432109876543210987654" 600).1 = mainLedger :=
  ⟨by decide, transferMoney_error_leaves_ledger mainLedger _ _ 600 (by decide)⟩

/-- C3: if the source id is not in the registry, or its record is inactive, or its
balance is less than `amount`, then `TransferMoney` returns the error
"invalid source account" and the ledger is unchanged. -/
theorem transferMoney_invalid_source (ps : PaymentSystem) (fromIBAN toIBAN : String)
    (amount : ℚ)
    (hsrc : getAccount ps.accounts fromIBAN = none ∨
      (∃ a, getAccount ps.accounts fromIBAN = some a ∧ a.Active = false) ∨
      (∃ a, getAccount ps.accounts fromIBAN = some a ∧ a.Balance < amount)) :
    TransferMoney ps fromIBAN toIBAN amount = (ps, some "invalid source account") := by
  rcases hsrc with h | ⟨a, h, ha⟩ | ⟨a, h, ha⟩
  · simp [TransferMoney, h]
  · simp [TransferMoney, h, ha]
  · simp [TransferMoney, h, ha]

/-- Witness of C3: 600 from the first opened account of `mainLedger`, which holds 500. -/
theorem transferMoney_invalid_source_witness :
    TransferMoney mainLedger "BY12345678901234567890123456"
        "BY98765432109876543210987654" 600 = (mainLedger, some "invalid source account") :=
  transferMoney_invalid_source mainLedger _ _ 600
    (Or.inr (Or.inr ⟨⟨"BY12345678901234567890123456", 500, true⟩, by decide, by norm_num⟩))

/-- C4 (counterexample): on the initial ledger neither "X" nor "Y" is in the registry;
`TransferMoney("X", "Y", 1)` has an invalid destination, yet the error it returns is
"invalid source account", not "invalid destination account". -/
theorem transferMoney_missing_destination_reports_source :
    getAccount NewPaymentSystem.accounts "Y" = none ∧
      (TransferMoney NewPaymentSystem "X" "Y" 1).2 = some "invalid source account" ∧
      (TransferMoney NewPaymentSystem "X" "Y" 1).2 ≠ some "invalid destination account" := by
  decide

/-- C4 (amended): if the source is in the registry, active and holds at least `amount`,
and the destination id is not in the registry or its record is inactive, then
`TransferMoney` returns the error "invalid destination account" and the ledger is
unchanged. -/
theorem transferMoney_invalid_destination (ps : PaymentSystem) (fromIBAN toIBAN : String)
    (amount : ℚ) (a : Account) (hA : getAccount ps.accounts fromIBAN = some a)
    (ha : a.Active = true) (hamt : amount ≤ a.Balance)
    (hdst : getAccount ps.accounts toIBAN = none ∨
      ∃ b, getAccount ps.accounts toIBAN = some b ∧ b.Active = false) :
    TransferMoney ps fromIBAN toIBAN amount =
      (ps, some "invalid destination account") := by
  have hlt : ¬ a.Balance < amount := not_lt.mpr hamt
  rcases hdst with h | ⟨b, h, hb⟩
  · simp [TransferMoney, hA, ha, hlt, h]
  · simp [TransferMoney, hA, ha, hlt, h, hb]

/-- Witness of C4 (amended): 100 from the first opened account of `mainLedger` to the
id "Y", which is not in the registry. -/
theorem transferMoney_invalid_destination_witness :
    TransferMoney mainLedger "BY12345678901234567890123456" "Y" 100 =
      (mainLedger, some "invalid destination account") :=
  transferMoney_invalid_destination mainLedger _ "Y" 100
    ⟨"BY12345678901234567890123456", 500, true⟩ (by decide) rfl (by norm_num)
    (Or.inl (by decide))

/-! ## Conservation -/

/-- C5: starting from `NewPaymentSystem`, any finite sequence of calls that contains no
`OpenAccount` (so `EmitMoney`, `DestroyMoney` and transfers, successful or not) runs
without panic and ends in a ledger whose balances sum to the emitted amounts plus the
destroyed amounts. -/
theorem conservation_emitted_plus_destroyed
    (unmarshal : String → TransferData → Except String TransferData) (ops : List Op)
    (hops : ∀ op ∈ ops, op.isOpenAccount = false) :
    ∃ ps, run unmarshal NewPaymentSystem ops = some ps ∧
      totalBalance ps = emitted ops + destroyed ops := by
  obtain ⟨ps, h1, h2⟩ :=
    run_totalBalance unmarshal ops NewPaymentSystem ReservedActive_NewPaymentSystem hops
  refine ⟨ps, h1, ?_⟩
  rw [h2]
  rw [totalBalance_NewPaymentSystem]
  ring

/-- Witness of C5: the calls `sampleOps`, with a decoder that rejects every text. -/
theorem conservation_emitted_plus_destroyed_witness :
    ∃ ps, run (fun _ _ => Except.error "no decoder") NewPaymentSystem sampleOps = some ps ∧
      totalBalance ps = emitted sampleOps + destroyed sampleOps :=
  conservation_emitted_plus_destroyed (fun _ _ => Except.error "no decoder") sampleOps
    (by decide)

/-- C6 (counterexample): `DestroyMoney(1)` on the initial ledger gives `burnLedger`, a
reachable ledger with cumulative emitted 0 and destroyed 1 whose balances sum to 1,
which is not 0 - 1. -/
theorem destroyMoney_adds_to_total :
    DestroyMoney NewPaymentSystem 1 = some burnLedger ∧
      ReachedWith burnLedger 0 (0 + 1) ∧
      totalBalance burnLedger = 1 ∧
      totalBalance burnLedger ≠ 0 - (0 + 1) := by
  have hcall : DestroyMoney NewPaymentSystem 1 = some burnLedger := by
    simp [DestroyMoney, NewPaymentSystem, burnLedger, setAccount, getAccount,
      modifyAccount]
  have htotal : totalBalance burnLedger = 1 := by
    simp [totalBalance, sumBalances, burnLedger]
  refine ⟨hcall, ReachedWith.destroy _ _ 0 0 1 ReachedWith.init hcall, htotal, ?_⟩
  rw [htotal]
  norm_num

/-- C6 (amended): with balances and amounts taken as exact numbers, in every ledger
reachable from `NewPaymentSystem` by `EmitMoney`, `DestroyMoney` and `TransferMoney`
calls, the sum of all balances equals the cumulative amount passed to `EmitMoney` plus
the cumulative amount passed to `DestroyMoney`. -/
theorem reached_total_is_emitted_plus_destroyed (ps : PaymentSystem) (e d : ℚ)
    (h : ReachedWith ps e d) : totalBalance ps = e + d := by
  induction h with
  | init => rw [totalBalance_NewPaymentSystem]; ring
  | emit ps ps1 e d amount hr hstep ih =>
    obtain ⟨ps2, h1, _, h3⟩ :=
      EmitMoney_of_reserved ps amount (ReachedWith_reserved ps e d hr)
    rw [hstep] at h1
    cases h1
    rw [h3, ih]
    ring
  | destroy ps ps1 e d amount hr hstep ih =>
    obtain ⟨ps2, h1, _, h3⟩ :=
      DestroyMoney_of_reserved ps amount (ReachedWith_reserved ps e d hr)
    rw [hstep] at h1
    cases h1
    rw [h3, ih]
    ring
  | transfer ps e d f t amount _ ih =>
    rw [totalBalance_TransferMoney, ih]

/-- Witness of C6 (amended): `mintBurnLedger`, reached by `EmitMoney(1000)` and then
`DestroyMoney(50)`; its balances sum to 1000 + 50. -/
theorem reached_total_is_emitted_plus_destroyed_witness :
    ReachedWith mintBurnLedger (0 + 1000) (0 + 50) ∧
      totalBalance mintBurnLedger = (0 + 1000) + (0 + 50) :=
  have hemit : EmitMoney NewPaymentSystem 1000 =
      some ⟨[ ("BY00EMIS00000000000000000000", ⟨"BY00EMIS00000000000000000000", 1000, true⟩),
              ("BY99DEST00000000000000000000", ⟨"BY99DEST00000000000000000000", 0, true⟩) ],
        "BY00EMIS00000000000000000000", "BY99DEST00000000000000000000"⟩ := by
    simp [EmitMoney, NewPaymentSystem, setAccount, getAccount, modifyAccount]
  have hburn : DestroyMoney
      ⟨[ ("BY00EMIS00000000000000000000", ⟨"BY00EMIS00000000000000000000", 1000, true⟩),
         ("BY99DEST00000000000000000000", ⟨"BY99DEST00000000000000000000", 0, true⟩) ],
        "BY00EMIS00000000000000000000", "BY99DEST00000000000000000000"⟩ 50
      = some mintBurnLedger := by
    simp [DestroyMoney, mintBurnLedger, getAccount, modifyAccount]
  have hreach : ReachedWith mintBurnLedger (0 + 1000) (0 + 50) :=
    ReachedWith.destroy _ _ (0 + 1000) 0 50
      (ReachedWith.emit _ _ 0 0 1000 ReachedWith.init hemit) hburn
  ⟨hreach, reached_total_is_emitted_plus_destroyed mintBurnLedger _ _ hreach⟩

/-! ## Sign of balances -/

/-- C8: if `X` is in the registry, active and holds at least `amount`, then
`TransferMoney(X, X, amount)` returns no error and the ledger after the call is the
ledger before it; in particular `balance(X)` is unchanged. -/
theorem transferMoney_to_self (ps : PaymentSystem) (X : String) (amount : ℚ) (a : Account)
    (hX : getAccount ps.accounts X = some a) (ha : a.Active = true)
    (hamt : amount ≤ a.Balance) :
    TransferMoney ps X X amount = (ps, none) ∧
      balanceOf (TransferMoney ps X X amount).1 X = some a.Balance := by
  have hcall : TransferMoney ps X X amount = (ps, none) := by
    rw [TransferMoney_of_valid ps X X amount a a hX hX ha ha hamt,
      modifyAccount_modifyAccount, modifyAccount_id]
    intro x _
    cases x
    simp
  refine ⟨hcall, ?_⟩
  rw [hcall]
  simp [balanceOf, hX]

/-- Witness of C8: 200 from the first opened account of `mainLedger` to itself. -/
theorem transferMoney_to_self_witness :
    TransferMoney mainLedger "BY12345678901234567890123456"
        "BY12345678901234567890123456" 200 = (mainLedger, none) ∧
      balanceOf (TransferMoney mainLedger "BY12345678901234567890123456"
        "BY12345678901234567890123456" 200).1 "BY12345678901234567890123456"
        = some (500 : ℚ) :=
  transferMoney_to_self mainLedger "BY12345678901234567890123456" 200
    ⟨"BY12345678901234567890123456", 500, true⟩ (by decide) rfl (by norm_num)

/-! ## Reserved accounts -/

/-- C9: every finite sequence of `OpenAccount`, `EmitMoney`, `DestroyMoney`,
`TransferMoney` and `TransferMoneyJSON` calls from `NewPaymentSystem` runs without panic
(no lookup of `EmitMoney` or `DestroyMoney` misses), and in the ledger it reaches the
two reserved ids are the initial ones and each has an active record in the registry,
so that a further `EmitMoney` or `DestroyMoney` does not panic either. -/
theorem reserved_accounts_always_active
    (unmarshal : String → TransferData → Except String TransferData) (ops : List Op) :
    ∃ ps, run unmarshal NewPaymentSystem ops = some ps ∧
      ps.emissionAccount = "BY00EMIS00000000000000000000" ∧
      ps.destructionAccount = "BY99DEST00000000000000000000" ∧
      (∃ a, getAccount ps.accounts "BY00EMIS00000000000000000000" = some a ∧
        a.Active = true) ∧
      (∃ b, getAccount ps.accounts "BY99DEST00000000000000000000" = some b ∧
        b.Active = true) ∧
      ∀ amount, EmitMoney ps amount ≠ none ∧ DestroyMoney ps amount ≠ none := by
  obtain ⟨ps, h1, h2⟩ :=
    run_reserved unmarshal ops NewPaymentSystem ReservedActive_NewPaymentSystem
  refine ⟨ps, h1, h2.1, h2.2.1, getAccount_of_isActiveAccount _ _ h2.2.2.1,
    getAccount_of_isActiveAccount _ _ h2.2.2.2, ?_⟩
  intro amount
  obtain ⟨p1, hp1, _⟩ := EmitMoney_of_reserved ps amount h2
  obtain ⟨p2, hp2, _⟩ := DestroyMoney_of_reserved ps amount h2
  constructor
  · rw [hp1]
    exact Option.some_ne_none _
  · rw [hp2]
    exact Option.some_ne_none _

/-! ## Initial ledger -/

/-- C10: the registry of `NewPaymentSystem` has exactly the two keys
"BY00EMIS00000000000000000000" and "BY99DEST00000000000000000000", which are distinct
and are the emission and the destruction id of the ledger; each key maps to the record
with that key as id, balance 0 and active; every other id is absent. -/
theorem newPaymentSystem_registry :
    accountIds NewPaymentSystem.accounts =
        ["BY00EMIS00000000000000000000", "BY99DEST00000000000000000000"] ∧
      "BY00EMIS00000000000000000000" ≠ "BY99DEST00000000000000000000" ∧
      NewPaymentSystem.emissionAccount = "BY00EMIS00000000000000000000" ∧
      NewPaymentSystem.destructionAccount = "BY99DEST00000000000000000000" ∧
      ∀ k, getAccount NewPaymentSystem.accounts k =
        if k = "BY00EMIS00000000000000000000" then
          some ⟨"BY00EMIS00000000000000000000", 0, true⟩
        else if k = "BY99DEST00000000000000000000" then
          some ⟨"BY99DEST00000000000000000000", 0, true⟩
        else none := by
  refine ⟨by decide, by decide, rfl, rfl, ?_⟩
  intro k
  by_cases h1 : k = "BY00EMIS00000000000000000000"
  · subst h1
    decide
  · by_cases h2 : k = "BY99DEST00000000000000000000"
    · subst h2
      decide
    · simp [NewPaymentSystem, setAccount, getAccount, h1, h2, Ne.symm h1, Ne.symm h2]

/-! ## OpenAccount -/

theorem sumBalances_setAccount (m : Accounts) (k : String) (v : Account) :
    sumBalances (setAccount m k v) =
      sumBalances m - ((getAccount m k).map Account.Balance).getD 0 + v.Balance := by
  induction m with
  | nil => simp [setAccount, getAccount, sumBalances]
  | cons e rest ih =>
    obtain ⟨k1, v1⟩ := e
    by_cases h : k1 = k
    · simp [setAccount, getAccount, sumBalances, h]
      ring
    · simp only [sumBalances] at ih
      simp [setAccount, getAccount, sumBalances, h, ih]
      ring

/-- C11: after `OpenAccount(id)` the registry maps `id` to the record with id `id`,
balance 0 and active, whether or not `id` was present; every other id has the record
it had before, or is absent as before; the two reserved ids of the ledger are kept.
`OpenAccount` has no error result and cannot panic (it is a total function). -/
theorem openAccount_registry (ps : PaymentSystem) (iban : String) :
    (∀ k, getAccount (OpenAccount ps iban).accounts k =
        if k = iban then some ⟨iban, 0, true⟩ else getAccount ps.accounts k) ∧
      (OpenAccount ps iban).emissionAccount = ps.emissionAccount ∧
      (OpenAccount ps iban).destructionAccount = ps.destructionAccount := by
  refine ⟨?_, rfl, rfl⟩
  intro k
  by_cases h : k = iban
  · subst h
    simp [OpenAccount, getAccount_setAccount_self]
  · simp [OpenAccount, h, getAccount_setAccount_of_ne _ _ _ _ (Ne.symm h)]

/-- C20: `OpenAccount(id)` changes the sum of all balances by minus the balance that
`id` held before the call, zero when `id` was absent. -/
theorem openAccount_total (ps : PaymentSystem) (iban : String) :
    totalBalance (OpenAccount ps iban) =
      totalBalance ps - (balanceOf ps iban).getD 0 := by
  simp only [totalBalance, OpenAccount, balanceOf]
  rw [sumBalances_setAccount]
  ring

/-! ## EmitMoney and DestroyMoney -/

theorem getAccount_modifyAccount (m : Accounts) (k k2 : String) (f : Account → Account) :
    getAccount (modifyAccount m k f) k2 =
      if k2 = k then (getAccount m k2).map f else getAccount m k2 := by
  by_cases h : k2 = k
  · subst h
    simp [getAccount_modifyAccount_self]
  · simp [h, getAccount_modifyAccount_of_ne _ _ _ _ (Ne.symm h)]

/-- C12: in the ledger reached from `NewPaymentSystem` by any finite sequence of calls,
`EmitMoney(amount)` does not panic, adds `amount` (of any sign) to the balance of the
emission record and changes nothing else: same reserved ids, same keys, every other
record as before, id and active flag of the emission record as before. The same holds
for `DestroyMoney(amount)` and the destruction record; it decrements no account. -/
theorem emit_destroy_effect
    (unmarshal : String → TransferData → Except String TransferData) (ops : List Op)
    (amount : ℚ) :
    ∃ ps, run unmarshal NewPaymentSystem ops = some ps ∧
      (∃ ps1, EmitMoney ps amount = some ps1 ∧
        ps1.emissionAccount = ps.emissionAccount ∧
        ps1.destructionAccount = ps.destructionAccount ∧
        accountIds ps1.accounts = accountIds ps.accounts ∧
        (∃ a, getAccount ps.accounts "BY00EMIS00000000000000000000" = some a ∧
          getAccount ps1.accounts "BY00EMIS00000000000000000000" =
            some ⟨a.IBAN, a.Balance + amount, a.Active⟩) ∧
        ∀ k, getAccount ps1.accounts k =
          if k = "BY00EMIS00000000000000000000" then
            (getAccount ps.accounts k).map
              (fun a => { a with Balance := a.Balance + amount })
          else getAccount ps.accounts k) ∧
      (∃ ps2, DestroyMoney ps amount = some ps2 ∧
        ps2.emissionAccount = ps.emissionAccount ∧
        ps2.destructionAccount = ps.destructionAccount ∧
        accountIds ps2.accounts = accountIds ps.accounts ∧
        (∃ b, getAccount ps.accounts "BY99DEST00000000000000000000" = some b ∧
          getAccount ps2.accounts "BY99DEST00000000000000000000" =
            some ⟨b.IBAN, b.Balance + amount, b.Active⟩) ∧
        ∀ k, getAccount ps2.accounts k =
          if k = "BY99DEST00000000000000000000" then
            (getAccount ps.accounts k).map
              (fun b => { b with Balance := b.Balance + amount })
          else getAccount ps.accounts k) := by
  obtain ⟨ps, hrun, he, hd, hae, had⟩ :=
    run_reserved unmarshal ops NewPaymentSystem ReservedActive_NewPaymentSystem
  obtain ⟨a, ha, _⟩ := getAccount_of_isActiveAccount _ _ hae
  obtain ⟨b, hb, _⟩ := getAccount_of_isActiveAccount _ _ had
  refine ⟨ps, hrun, ?_, ?_⟩
  · have hcall : EmitMoney ps amount = some { ps with
        accounts := modifyAccount ps.accounts "BY00EMIS00000000000000000000"
          (fun x => { x with Balance := x.Balance + amount }) } := by
      simp only [EmitMoney, he, ha]
    refine ⟨_, hcall, rfl, rfl, accountIds_modifyAccount _ _ _, ⟨a, ha, ?_⟩, ?_⟩
    · simp only []
      rw [getAccount_modifyAccount_self, ha]
      rfl
    · intro k
      exact getAccount_modifyAccount _ _ _ _
  · have hcall : DestroyMoney ps amount = some { ps with
        accounts := modifyAccount ps.accounts "BY99DEST00000000000000000000"
          (fun x => { x with Balance := x.Balance + amount }) } := by
      simp only [DestroyMoney, hd, hb]
    refine ⟨_, hcall, rfl, rfl, accountIds_modifyAccount _ _ _, ⟨b, hb, ?_⟩, ?_⟩
    · simp only []
      rw [getAccount_modifyAccount_self, hb]
      rfl
    · intro k
      exact getAccount_modifyAccount _ _ _ _

/-! ## TransferMoney: outcome -/

/-- C15: `TransferMoney` never returns the error "not enough money for transfer"; its
result is no error, "invalid source account" or "invalid destination account". -/
theorem transferMoney_second_check_dead (ps : PaymentSystem) (fromIBAN toIBAN : String)
    (amount : ℚ) :
    (TransferMoney ps fromIBAN toIBAN amount).2 ≠ some "not enough money for transfer" ∧
      ((TransferMoney ps fromIBAN toIBAN amount).2 = none ∨
        (TransferMoney ps fromIBAN toIBAN amount).2 = some "invalid source account" ∨
        (TransferMoney ps fromIBAN toIBAN amount).2
          = some "invalid destination account") := by
  unfold TransferMoney
  split
  · exact ⟨by simp, Or.inr (Or.inl rfl)⟩
  · split
    · exact ⟨by simp, Or.inr (Or.inl rfl)⟩
    · rename_i hfirst
      split
      · exact ⟨by simp, Or.inr (Or.inr rfl)⟩
      · split
        · exact ⟨by simp, Or.inr (Or.inr rfl)⟩
        · split
          · rename_i hsecond
            exact absurd (by simp [hsecond]) hfirst
          · exact ⟨by simp, Or.inl rfl⟩

/-- Outcome of `TransferMoney` over exact numbers, where a guard `balance < amount` that
is false means `amount ≤ balance`: "invalid source account" exactly when the source is
missing, inactive or holds less than `amount`; "invalid destination account" exactly when
the source is present, active and holds at least `amount` while the destination is
missing or inactive; no error exactly when the source is present, active and holds at
least `amount` and the destination is present and active. -/
theorem transferMoney_outcome (ps : PaymentSystem) (fromIBAN toIBAN : String)
    (amount : ℚ) :
    ((TransferMoney ps fromIBAN toIBAN amount).2 = some "invalid source account" ↔
        (getAccount ps.accounts fromIBAN = none ∨
          ∃ a, getAccount ps.accounts fromIBAN = some a ∧
            (a.Active = false ∨ a.Balance < amount))) ∧
      ((TransferMoney ps fromIBAN toIBAN amount).2 = some "invalid destination account" ↔
        ((∃ a, getAccount ps.accounts fromIBAN = some a ∧ a.Active = true ∧
            amount ≤ a.Balance) ∧
          (getAccount ps.accounts toIBAN = none ∨
            ∃ b, getAccount ps.accounts toIBAN = some b ∧ b.Active = false))) ∧
      ((TransferMoney ps fromIBAN toIBAN amount).2 = none ↔
        ((∃ a, getAccount ps.accounts fromIBAN = some a ∧ a.Active = true ∧
            amount ≤ a.Balance) ∧
          ∃ b, getAccount ps.accounts toIBAN = some b ∧ b.Active = true)) := by
  cases hA : getAccount ps.accounts fromIBAN with
  | none => simp [TransferMoney, hA]
  | some a =>
    by_cases ha : a.Active = true
    · by_cases hlt : a.Balance < amount
      · simp [TransferMoney, hA, ha, hlt]
      · have hle : amount ≤ a.Balance := not_lt.mp hlt
        cases hB : getAccount ps.accounts toIBAN with
        | none => simp [TransferMoney, hA, ha, hlt, hle, hB]
        | some b =>
          by_cases hb : b.Active = true
          · simp [TransferMoney, hA, ha, hlt, hle, hB, hb]
          · simp [TransferMoney, hA, ha, hlt, hle, hB, hb]
    · simp [TransferMoney, hA, ha]

theorem getAccount_setBalance_IBAN (m : Accounts) (k k2 : String) (g : Account → ℚ) :
    (getAccount (modifyAccount m k (fun x => { x with Balance := g x })) k2).map
        Account.IBAN = (getAccount m k2).map Account.IBAN := by
  rw [getAccount_modifyAccount]
  split
  · cases getAccount m k2 <;> rfl
  · rfl

theorem getAccount_setBalance_Active (m : Accounts) (k k2 : String) (g : Account → ℚ) :
    (getAccount (modifyAccount m k (fun x => { x with Balance := g x })) k2).map
        Account.Active = (getAccount m k2).map Account.Active := by
  rw [getAccount_modifyAccount]
  split
  · cases getAccount m k2 <;> rfl
  · rfl

/-- C19: when `TransferMoney` returns no error, the keys of the registry and the two
reserved ids are as before, every record keeps its id and its active flag, and the
record of every id other than `fromIBAN` and `toIBAN` is as before. -/
theorem transferMoney_success_frame (ps : PaymentSystem) (fromIBAN toIBAN : String)
    (amount : ℚ) (hok : (TransferMoney ps fromIBAN toIBAN amount).2 = none) :
    accountIds (TransferMoney ps fromIBAN toIBAN amount).1.accounts
        = accountIds ps.accounts ∧
      (TransferMoney ps fromIBAN toIBAN amount).1.emissionAccount
        = ps.emissionAccount ∧
      (TransferMoney ps fromIBAN toIBAN amount).1.destructionAccount
        = ps.destructionAccount ∧
      ∀ k,
        (getAccount (TransferMoney ps fromIBAN toIBAN amount).1.accounts k).map
            Account.IBAN = (getAccount ps.accounts k).map Account.IBAN ∧
        (getAccount (TransferMoney ps fromIBAN toIBAN amount).1.accounts k).map
            Account.Active = (getAccount ps.accounts k).map Account.Active ∧
        (k ≠ fromIBAN → k ≠ toIBAN →
          getAccount (TransferMoney ps fromIBAN toIBAN amount).1.accounts k
            = getAccount ps.accounts k) := by
  have hst : (TransferMoney ps fromIBAN toIBAN amount).1 =
      { ps with
        accounts := modifyAccount
          (modifyAccount ps.accounts fromIBAN
            (fun x => { x with Balance := x.Balance - amount }))
          toIBAN (fun x => { x with Balance := x.Balance + amount }) } := by
    rcases TransferMoney_fst_cases ps fromIBAN toIBAN amount with hc | hc
    · have hcases : (∃ e, TransferMoney ps fromIBAN toIBAN amount = (ps, some e)) ∨
          (TransferMoney ps fromIBAN toIBAN amount).1 =
            { ps with
              accounts := modifyAccount
                (modifyAccount ps.accounts fromIBAN
                  (fun x => { x with Balance := x.Balance - amount }))
                toIBAN (fun x => { x with Balance := x.Balance + amount }) } := by
        unfold TransferMoney
        split
        · exact Or.inl ⟨_, rfl⟩
        · split
          · exact Or.inl ⟨_, rfl⟩
          · split
            · exact Or.inl ⟨_, rfl⟩
            · split
              · exact Or.inl ⟨_, rfl⟩
              · split
                · exact Or.inl ⟨_, rfl⟩
                · exact Or.inr rfl
      rcases hcases with ⟨e, he⟩ | h2
      · rw [he] at hok
        simp at hok
      · exact h2
    · exact hc
  rw [hst]
  refine ⟨?_, rfl, rfl, ?_⟩
  · simp only [accountIds_modifyAccount]
  · intro k
    refine ⟨?_, ?_, ?_⟩
    · simp only [getAccount_setBalance_IBAN]
    · simp only [getAccount_setBalance_Active]
    · intro h1 h2
      simp only []
      rw [getAccount_modifyAccount_of_ne _ _ _ _ (Ne.symm h2),
        getAccount_modifyAccount_of_ne _ _ _ _ (Ne.symm h1)]

/-- Witness of C19: 100 from the emission account of `mainLedger` to the first opened
account; the keys are as before and the record of the second opened account is as
before. -/
theorem transferMoney_success_frame_witness :
    accountIds (TransferMoney mainLedger "BY00EMIS00000000000000000000"
        "BY12345678901234567890123456" 100).1.accounts = accountIds mainLedger.accounts ∧
      getAccount (TransferMoney mainLedger "BY00EMIS00000000000000000000"
        "BY12345678901234567890123456" 100).1.accounts "BY98765432109876543210987654"
        = getAccount mainLedger.accounts "BY98765432109876543210987654" :=
  ⟨(transferMoney_success_frame mainLedger "BY00EMIS00000000000000000000"
      "BY12345678901234567890123456" 100 (by decide)).1,
    ((transferMoney_success_frame mainLedger "BY00EMIS00000000000000000000"
      "BY12345678901234567890123456" 100 (by decide)).2.2.2
      "BY98765432109876543210987654").2.2 (by decide) (by decide)⟩

/-! ## Zero-amount transfer -/

/-- C17 (counterexample): `EmitMoney(-5)` on the initial ledger gives `overdrawnLedger`,
where the emission and the destruction account are present and active; the call
`TransferMoney(emission, destruction, 0)` on it returns "invalid source account". -/
theorem transferMoney_zero_rejected_when_overdrawn :
    EmitMoney NewPaymentSystem (-5) = some overdrawnLedger ∧
      isActiveAccount overdrawnLedger.accounts "BY00EMIS00000000000000000000" = true ∧
      isActiveAccount overdrawnLedger.accounts "BY99DEST00000000000000000000" = true ∧
      (TransferMoney overdrawnLedger "BY00EMIS00000000000000000000"
        "BY99DEST00000000000000000000" 0).2 = some "invalid source account" := by
  refine ⟨?_, by decide, by decide, by decide⟩
  simp [EmitMoney, NewPaymentSystem, overdrawnLedger, setAccount, getAccount,
    modifyAccount]

/-- C17 (amended): if `fromId` and `toId` are in the registry and active and the balance
of `fromId` is at least 0, then `TransferMoney(fromId, toId, 0)` returns no error and
leaves the ledger, hence every balance, unchanged. -/
theorem transferMoney_zero_amount (ps : PaymentSystem) (fromIBAN toIBAN : String)
    (a b : Account) (hA : getAccount ps.accounts fromIBAN = some a)
    (hB : getAccount ps.accounts toIBAN = some b) (ha : a.Active = true)
    (hb : b.Active = true) (hbal : 0 ≤ a.Balance) :
    TransferMoney ps fromIBAN toIBAN 0 = (ps, none) := by
  rw [TransferMoney_of_valid ps fromIBAN toIBAN 0 a b hA hB ha hb hbal]
  have h1 : modifyAccount ps.accounts fromIBAN
      (fun x => { x with Balance := x.Balance - 0 }) = ps.accounts := by
    apply modifyAccount_id
    intro x _
    cases x
    simp
  rw [h1]
  have h2 : modifyAccount ps.accounts toIBAN
      (fun x => { x with Balance := x.Balance + 0 }) = ps.accounts := by
    apply modifyAccount_id
    intro x _
    cases x
    simp
  rw [h2]

/-- Witness of C17 (amended): 0 from the first to the second opened account of
`mainLedger`. -/
theorem transferMoney_zero_amount_witness :
    TransferMoney mainLedger "BY12345678901234567890123456"
      "BY98765432109876543210987654" 0 = (mainLedger, none) :=
  transferMoney_zero_amount mainLedger "BY12345678901234567890123456"
    "BY98765432109876543210987654"
    ⟨"BY12345678901234567890123456", 500, true⟩
    ⟨"BY98765432109876543210987654", 0, true⟩
    (by decide) (by decide) rfl rfl (by norm_num)

/-! ## Reachable registries -/

theorem mem_setAccount (m : Accounts) (k : String) (v : Account) (e : String × Account)
    (he : e ∈ setAccount m k v) : e ∈ m ∨ e = (k, v) := by
  induction m with
  | nil =>
    simp only [setAccount, List.mem_singleton] at he
    exact Or.inr he
  | cons e1 rest ih =>
    obtain ⟨k1, v1⟩ := e1
    by_cases h : k1 = k
    · simp only [setAccount, h, if_true, List.mem_cons] at he
      rcases he with he | he
      · exact Or.inr he
      · exact Or.inl (List.mem_cons_of_mem _ he)
    · simp only [setAccount, h, if_false, List.mem_cons] at he
      rcases he with he | he
      · exact Or.inl (by simp [he])
      · rcases ih he with h1 | h1
        · exact Or.inl (List.mem_cons_of_mem _ h1)
        · exact Or.inr h1

theorem mem_accountIds_setAccount (m : Accounts) (k : String) (v : Account) (x : String)
    (hx : x ∈ accountIds (setAccount m k v)) : x = k ∨ x ∈ accountIds m := by
  simp only [accountIds, List.mem_map] at hx ⊢
  obtain ⟨e, he, rfl⟩ := hx
  rcases mem_setAccount m k v e he with h | h
  · exact Or.inr ⟨e, h, rfl⟩
  · exact Or.inl (by rw [h])

theorem nodup_accountIds_setAccount (m : Accounts) (k : String) (v : Account)
    (h : (accountIds m).Nodup) : (accountIds (setAccount m k v)).Nodup := by
  induction m with
  | nil => simp [setAccount, accountIds]
  | cons e1 rest ih =>
    obtain ⟨k1, v1⟩ := e1
    have hcons : k1 ∉ accountIds rest ∧ (accountIds rest).Nodup := by
      simpa [accountIds] using h
    by_cases hk : k1 = k
    · subst hk
      simpa [setAccount, accountIds] using h
    · have hnot : k1 ∉ accountIds (setAccount rest k v) := by
        intro hmem
        rcases mem_accountIds_setAccount rest k v k1 hmem with h1 | h1
        · exact hk h1
        · exact hcons.1 h1
      have hrest := ih hcons.2
      simp only [setAccount, hk, if_false]
      exact List.nodup_cons.mpr ⟨hnot, hrest⟩

theorem WellKeyed_setAccount (m : Accounts) (k : String) (v : Account)
    (hv : v.Active = true) (hk : v.IBAN = k) (h : WellKeyed m) :
    WellKeyed (setAccount m k v) := by
  refine ⟨?_, nodup_accountIds_setAccount m k v h.2⟩
  intro e he
  rcases mem_setAccount m k v e he with h1 | h1
  · exact h.1 e h1
  · rw [h1]
    exact ⟨hv, hk⟩

theorem WellKeyed_setBalance (m : Accounts) (k : String) (g : Account → ℚ)
    (h : WellKeyed m) :
    WellKeyed (modifyAccount m k (fun x => { x with Balance := g x })) := by
  refine ⟨?_, ?_⟩
  · intro e he
    rcases mem_modifyAccount m k _ e he with h1 | ⟨a, ha, h1⟩
    · exact h.1 e h1
    · rw [h1]
      exact h.1 (k, a) (mem_of_getAccount m k a ha)
  · rw [accountIds_modifyAccount]
    exact h.2

theorem WellKeyed_NewPaymentSystem : WellKeyed NewPaymentSystem.accounts := by
  refine ⟨by decide, by decide⟩

theorem WellKeyed_TransferMoney (ps : PaymentSystem) (fromIBAN toIBAN : String)
    (amount : ℚ) (h : WellKeyed ps.accounts) :
    WellKeyed (TransferMoney ps fromIBAN toIBAN amount).1.accounts := by
  rcases TransferMoney_fst_cases ps fromIBAN toIBAN amount with hc | hc
  · rw [hc]
    exact h
  · rw [hc]
    exact WellKeyed_setBalance _ _ _ (WellKeyed_setBalance _ _ _ h)

theorem WellKeyed_TransferMoneyJSON
    (unmarshal : String → TransferData → Except String TransferData)
    (ps : PaymentSystem) (transferJSON : String) (h : WellKeyed ps.accounts) :
    WellKeyed (TransferMoneyJSON unmarshal ps transferJSON).1.accounts := by
  rcases TransferMoneyJSON_fst_cases unmarshal ps transferJSON with hc | ⟨f, t, a, hc⟩
  · rw [hc]
    exact h
  · rw [hc]
    exact WellKeyed_TransferMoney ps f t a h

theorem step_wellKeyed (unmarshal : String → TransferData → Except String TransferData)
    (ps ps1 : PaymentSystem) (op : Op) (hstep : step unmarshal ps op = some ps1)
    (h : WellKeyed ps.accounts) : WellKeyed ps1.accounts := by
  cases op with
  | emitMoney amount =>
    simp only [step, EmitMoney] at hstep
    split at hstep
    · simp at hstep
    · simp only [Option.some.injEq] at hstep
      rw [← hstep]
      exact WellKeyed_setBalance _ _ _ h
  | destroyMoney amount =>
    simp only [step, DestroyMoney] at hstep
    split at hstep
    · simp at hstep
    · simp only [Option.some.injEq] at hstep
      rw [← hstep]
      exact WellKeyed_setBalance _ _ _ h
  | openAccount iban =>
    simp only [step, Option.some.injEq] at hstep
    rw [← hstep]
    exact WellKeyed_setAccount _ _ _ rfl rfl h
  | transferMoney f t a =>
    simp only [step, Option.some.injEq] at hstep
    rw [← hstep]
    exact WellKeyed_TransferMoney ps f t a h
  | transferMoneyJSON js =>
    simp only [step, Option.some.injEq] at hstep
    rw [← hstep]
    exact WellKeyed_TransferMoneyJSON unmarshal ps js h

theorem run_wellKeyed (unmarshal : String → TransferData → Except String TransferData)
    (ops : List Op) (ps ps1 : PaymentSystem) (hrun : run unmarshal ps ops = some ps1)
    (h : WellKeyed ps.accounts) : WellKeyed ps1.accounts := by
  induction ops generalizing ps with
  | nil =>
    simp only [run, Option.some.injEq] at hrun
    rw [← hrun]
    exact h
  | cons op ops ih =>
    simp only [run] at hrun
    cases hstep : step unmarshal ps op with
    | none => simp [hstep] at hrun
    | some ps2 =>
      rw [hstep] at hrun
      exact ih ps2 hrun (step_wellKeyed unmarshal ps ps2 op hstep h)

/-- C16: every finite sequence of `OpenAccount`, `EmitMoney`, `DestroyMoney`,
`TransferMoney` and `TransferMoneyJSON` calls from `NewPaymentSystem` runs without panic
and reaches a ledger in which every record is active and carries as id the key it is
stored under, and no key occurs twice; so every record a lookup returns there is active
and the inactive disjuncts of the two checks of `TransferMoney` are false. -/
theorem inactive_unreachable
    (unmarshal : String → TransferData → Except String TransferData) (ops : List Op) :
    ∃ ps, run unmarshal NewPaymentSystem ops = some ps ∧
      (∀ e ∈ ps.accounts, e.2.Active = true ∧ e.2.IBAN = e.1) ∧
      (accountIds ps.accounts).Nodup ∧
      ∀ k a, getAccount ps.accounts k = some a → a.Active = true ∧ a.IBAN = k := by
  obtain ⟨ps, hrun, _⟩ :=
    run_reserved unmarshal ops NewPaymentSystem ReservedActive_NewPaymentSystem
  have hwk := run_wellKeyed unmarshal ops NewPaymentSystem ps hrun
    WellKeyed_NewPaymentSystem
  refine ⟨ps, hrun, hwk.1, hwk.2, ?_⟩
  intro k a hka
  exact hwk.1 (k, a) (mem_of_getAccount _ _ _ hka)

/-! ## TransferMoneyJSON -/

/-- C13: `TransferMoneyJSON` is the spec operation `TransferMoneyFromRequest` over the
decoder it is given. When decoding yields the struct `d`, it returns the error and the
ledger of `TransferMoney(d.From, d.To, d.Amount)`; when decoding fails with `err`, it
returns `err` and the ledger it was given. -/
theorem transferMoneyJSON_refines
    (unmarshal : String → TransferData → Except String TransferData)
    (ps : PaymentSystem) (transferJSON : String) :
    TransferMoneyJSON unmarshal ps transferJSON =
        TransferMoneyFromRequest
          (fun request =>
            match unmarshal request ⟨"", "", 0⟩ with
            | .error err => .error err
            | .ok d => .ok (d.From, d.To, d.Amount))
          ps transferJSON ∧
      (∀ d, unmarshal transferJSON ⟨"", "", 0⟩ = .ok d →
        TransferMoneyJSON unmarshal ps transferJSON
          = TransferMoney ps d.From d.To d.Amount) ∧
      (∀ err, unmarshal transferJSON ⟨"", "", 0⟩ = .error err →
        TransferMoneyJSON unmarshal ps transferJSON = (ps, some err)) := by
  refine ⟨?_, ?_, ?_⟩
  · cases hdec : unmarshal transferJSON ⟨"", "", 0⟩ with
    | error err => simp only [TransferMoneyJSON, TransferMoneyFromRequest, hdec]
    | ok d => simp only [TransferMoneyJSON, TransferMoneyFromRequest, hdec]
  · intro d hd
    simp only [TransferMoneyJSON, hd]
  · intro err herr
    simp only [TransferMoneyJSON, herr]

theorem storeField_of_not_appropriate (field : TransferField) (value : JsonValue)
    (v : TransferData) (h : appropriate field value = false) :
    storeField field value v = none := by
  cases field <;> cases value <;> simp_all [appropriate, storeField]

theorem decodeObject_saved (members : List (String × JsonValue)) (v : TransferData)
    (err : String) : (decodeObject members v (some err)).2 = some err := by
  induction members generalizing v with
  | nil => rfl
  | cons m rest ih =>
    obtain ⟨key, value⟩ := m
    simp only [decodeObject]
    split
    · exact ih v
    · split
      · exact ih _
      · exact ih v

theorem decodeObject_type_error (members : List (String × JsonValue)) (key : String)
    (value : JsonValue) (field : TransferField) (hmem : (key, value) ∈ members)
    (hfield : fieldOfKey key = some field) (hwrong : appropriate field value = false)
    (v : TransferData) (saved : Option String) :
    ∃ err, (decodeObject members v saved).2 = some err := by
  induction members generalizing v saved with
  | nil => simp at hmem
  | cons m rest ih =>
    rcases List.mem_cons.mp hmem with h | h
    · subst h
      simp only [decodeObject, hfield, storeField_of_not_appropriate field value v hwrong]
      cases saved with
      | none => exact ⟨_, decodeObject_saved rest v _⟩
      | some e => exact ⟨_, decodeObject_saved rest v e⟩
    · obtain ⟨key1, value1⟩ := m
      simp only [decodeObject]
      split
      · exact ih h v saved
      · split
        · exact ih h _ saved
        · split
          · exact ih h v _
          · exact ih h v _

/-- C14 (counterexample): on `mainLedger`, a request object that lacks the amount and a
request object that carries the unknown member "memo" are both decoded without error and
forwarded: `TransferMoneyJSON` returns no error, the first as a transfer of 0, the second
as a transfer of 100 that leaves the destination with 100. -/
theorem transferMoneyJSON_forwards_incomplete_request :
    (TransferMoneyJSON (jsonUnmarshal fun _ => .ok requestWithoutAmount) mainLedger
        "request").2 = none ∧
      (TransferMoneyJSON (jsonUnmarshal fun _ => .ok requestWithMemo) mainLedger
        "request").2 = none ∧
      balanceOf (TransferMoneyJSON (jsonUnmarshal fun _ => .ok requestWithMemo)
        mainLedger "request").1 "BY98765432109876543210987654" = some 100 := by
  have h1 : jsonUnmarshal (fun _ => .ok requestWithoutAmount) "request" ⟨"", "", 0⟩
      = .ok ⟨"BY00EMIS00000000000000000000", "BY98765432109876543210987654", 0⟩ := by
    simp [jsonUnmarshal, unmarshalValue, requestWithoutAmount, decodeObject, fieldOfKey,
      foldKey, storeField]
  have h2 : jsonUnmarshal (fun _ => .ok requestWithMemo) "request" ⟨"", "", 0⟩
      = .ok ⟨"BY00EMIS00000000000000000000", "BY98765432109876543210987654", 100⟩ := by
    simp [jsonUnmarshal, unmarshalValue, requestWithMemo, decodeObject, fieldOfKey,
      foldKey, storeField]
  have h51 : ¬ (500 : ℚ) < 100 := by norm_num
  refine ⟨?_, ?_, ?_⟩
  · simp only [TransferMoneyJSON, h1]
    decide
  · simp only [TransferMoneyJSON, h2]
    decide
  · simp only [TransferMoneyJSON, h2]
    simp [TransferMoney, mainLedger, getAccount, modifyAccount, balanceOf, h51]

/-- C14 (amended): if the request text parses to a JSON object in which some member
addresses one of the fields from, to, amount (its key is the field name up to letter
case) with a value of the wrong type (neither `null` nor a string for from and to,
neither `null` nor a number for amount), then `TransferMoneyJSON` fails with the decoding
error and leaves the ledger unchanged. -/
theorem transferMoneyJSON_wrong_type (parse : String → Except String JsonValue)
    (ps : PaymentSystem) (transferJSON : String) (members : List (String × JsonValue))
    (key : String) (value : JsonValue) (field : TransferField)
    (hparse : parse transferJSON = .ok (.object members))
    (hmem : (key, value) ∈ members) (hfield : fieldOfKey key = some field)
    (hwrong : appropriate field value = false) :
    ∃ err, TransferMoneyJSON (jsonUnmarshal parse) ps transferJSON = (ps, some err) := by
  obtain ⟨err, herr⟩ := decodeObject_type_error members key value field hmem hfield
    hwrong ⟨"", "", 0⟩ none
  refine ⟨err, ?_⟩
  have hdec : jsonUnmarshal parse transferJSON ⟨"", "", 0⟩ = .error err := by
    simp only [jsonUnmarshal, hparse, unmarshalValue]
    split
    · rename_i heq
      rw [heq] at herr
      simp at herr
    · rename_i heq
      rw [heq] at herr
      simp only [Option.some.injEq] at herr
      rw [herr]
  simp only [TransferMoneyJSON, hdec]

/-- Witness of C14 (amended): the request object `requestWithTextAmount`, whose amount
is the string "100", on `mainLedger`. -/
theorem transferMoneyJSON_wrong_type_witness :
    ∃ err, TransferMoneyJSON (jsonUnmarshal fun _ => .ok requestWithTextAmount)
      mainLedger "request" = (mainLedger, some err) :=
  transferMoneyJSON_wrong_type (fun _ => .ok requestWithTextAmount) mainLedger "request"
    [ ("from", .string "BY00EMIS00000000000000000000"),
      ("to", .string "BY98765432109876543210987654"),
      ("amount", .string "100") ]
    "amount" (.string "100") .Amount rfl (by simp) (by decide) rfl

/-! ## TransferMoney over an arbitrary number type -/

theorem getAccountOf_toOf (m : Accounts) (k : String) :
    getAccountOf (m.map fun e => (e.1, e.2.toOf)) k = (getAccount m k).map Account.toOf := by
  induction m with
  | nil => rfl
  | cons e rest ih =>
    obtain ⟨k1, v⟩ := e
    by_cases h : k1 = k
    · simp [getAccountOf, getAccount, h]
    · simp [getAccountOf, getAccount, h, ih]

theorem modifyAccountOf_toOf (m : Accounts) (k : String) (f : Account → Account)
    (g : AccountOf ℚ → AccountOf ℚ) (hfg : ∀ a, g a.toOf = (f a).toOf) :
    modifyAccountOf (m.map fun e => (e.1, e.2.toOf)) k g =
      (modifyAccount m k f).map fun e => (e.1, e.2.toOf) := by
  induction m with
  | nil => rfl
  | cons e rest ih =>
    obtain ⟨k1, v⟩ := e
    by_cases h : k1 = k
    · simp [modifyAccountOf, modifyAccount, h, hfg]
    · simp [modifyAccountOf, modifyAccount, h, ih]

/-- With the exact numbers as number type, `TransferMoneyOf` is `TransferMoney`. -/
theorem TransferMoneyOf_ratOps (ps : PaymentSystem) (fromIBAN toIBAN : String)
    (amount : ℚ) :
    TransferMoneyOf ratOps ps.toOf fromIBAN toIBAN amount =
      ((TransferMoney ps fromIBAN toIBAN amount).1.toOf,
        (TransferMoney ps fromIBAN toIBAN amount).2) := by
  have h1 := modifyAccountOf_toOf ps.accounts fromIBAN
    (fun x => { x with Balance := x.Balance - amount })
    (fun x => { x with Balance := ratOps.sub x.Balance amount }) (fun _ => rfl)
  have h2 := modifyAccountOf_toOf
    (modifyAccount ps.accounts fromIBAN (fun x => { x with Balance := x.Balance - amount }))
    toIBAN (fun x => { x with Balance := x.Balance + amount })
    (fun x => { x with Balance := ratOps.add x.Balance amount }) (fun _ => rfl)
  simp only [Account.toOf, ratOps] at h1 h2
  unfold TransferMoneyOf TransferMoney
  simp only [PaymentSystem.toOf, getAccountOf_toOf]
  cases hA : getAccount ps.accounts fromIBAN with
  | none => rfl
  | some a =>
    by_cases ha : a.Active = true
    · by_cases hlt : a.Balance < amount
      · simp [Account.toOf, ratOps, ha, hlt]
      · cases hB : getAccount ps.accounts toIBAN with
        | none => simp [Account.toOf, ratOps, ha, hlt]
        | some b =>
          by_cases hb : b.Active = true
          · simp [Account.toOf, ratOps, ha, hb, hlt, h1, h2]
          · simp [Account.toOf, ratOps, ha, hb, hlt]
    · simp [Account.toOf, ha]

/-- C18 (counterexample): on the initial ledger with `float64` balances the emission and
the destruction account are present and active with balance 0; with the amount NaN the
guard `0 < NaN` is false and `TransferMoney(emission, destruction, NaN)` returns no
error, although `0 >= NaN` is false. -/
theorem transferMoney_nan_amount_accepted :
    getAccountOf initialLedgerF64.accounts "BY00EMIS00000000000000000000"
        = some ⟨"BY00EMIS00000000000000000000", .finite 0, true⟩ ∧
      getAccountOf initialLedgerF64.accounts "BY99DEST00000000000000000000"
        = some ⟨"BY99DEST00000000000000000000", .finite 0, true⟩ ∧
      (TransferMoneyOf f64Ops initialLedgerF64 "BY00EMIS00000000000000000000"
        "BY99DEST00000000000000000000" .nan).2 = none ∧
      F64.ge (.finite 0) .nan = false := by
  decide

/-- C18 (amended): the exact outcome of `TransferMoney`, for every number type and every
comparison `<`. It returns "invalid source account" exactly when the source is missing,
inactive or its guard `balance < amount` is true; it returns "invalid destination
account" exactly when the source is present and active with the guard `balance < amount`
false while the destination is missing or inactive; it returns no error exactly when the
source is present and active with the guard `balance < amount` false and the destination
is present and active. -/
theorem transferMoneyOf_outcome {α : Type} (num : NumberOps α) (ps : PaymentSystemOf α)
    (fromIBAN toIBAN : String) (amount : α) :
    ((TransferMoneyOf num ps fromIBAN toIBAN amount).2 = some "invalid source account" ↔
        (getAccountOf ps.accounts fromIBAN = none ∨
          ∃ a, getAccountOf ps.accounts fromIBAN = some a ∧
            (a.Active = false ∨ num.lt a.Balance amount = true))) ∧
      ((TransferMoneyOf num ps fromIBAN toIBAN amount).2
          = some "invalid destination account" ↔
        ((∃ a, getAccountOf ps.accounts fromIBAN = some a ∧ a.Active = true ∧
            num.lt a.Balance amount = false) ∧
          (getAccountOf ps.accounts toIBAN = none ∨
            ∃ b, getAccountOf ps.accounts toIBAN = some b ∧ b.Active = false))) ∧
      ((TransferMoneyOf num ps fromIBAN toIBAN amount).2 = none ↔
        ((∃ a, getAccountOf ps.accounts fromIBAN = some a ∧ a.Active = true ∧
            num.lt a.Balance amount = false) ∧
          ∃ b, getAccountOf ps.accounts toIBAN = some b ∧ b.Active = true)) := by
  cases hA : getAccountOf ps.accounts fromIBAN with
  | none => simp [TransferMoneyOf, hA]
  | some a =>
    by_cases ha : a.Active = true
    · by_cases hlt : num.lt a.Balance amount = true
      · simp [TransferMoneyOf, hA, ha, hlt]
      · have hlt2 : num.lt a.Balance amount = false := by simpa using hlt
        cases hB : getAccountOf ps.accounts toIBAN with
        | none => simp [TransferMoneyOf, hA, ha, hlt2, hB]
        | some b =>
          by_cases hb : b.Active = true
          · simp [TransferMoneyOf, hA, ha, hlt2, hB, hb]
          · simp [TransferMoneyOf, hA, ha, hlt2, hB, hb]
    · simp [TransferMoneyOf, hA, ha]

end BankSystem
